import Mathlib

/-!
# GPU_Project: a shallow embedding of `GPU_Project/main.cpp`

The file embeds the host-side driver of the CUDA vision pipeline:

* the constant Sobel tables (lines 14-24);
* `main`'s argument parsing and dispatch (lines 570-759);
* the single-frame pipeline `handleImage` (lines 62-271), the video loop
  `handleVideo` (lines 280-314) and the optical-flow demo `opticalNaive`
  (lines 325-568), as state transformers over a record holding the device
  memory, the trace of external calls and the pending user-interface input.

The CUDA kernels of `include/cuda_kernel.cuh`, the helpers of `include/utils.h`
and the OpenCV pixel operations are not part of `main.cpp`; they are taken as
parameters (structure `Ext`).  Calls into OpenCV and the CUDA runtime are
modelled as returning normally, with one exception: `cv::cvtColor` throws a
`cv::Exception` when `main.cpp` hands it a source it does not accept, an empty
frame (lines 350-351) or an image whose number of channels the conversion
does not take (line 234).  No handler encloses the pipelines, so such an
exception ends the run.  Strings are lists of characters, `int` values are
integers, `size_t` arithmetic wraps at `2 ^ 64` where the source relies on it.
-/

namespace GPUProject

/-! ## Constant tables (lines 14-24) -/

/-- Dense Sobel-X operator, `sobel_x_kernel[9]` (line 15). The coefficients are
small integers, exactly representable as `float`. -/
def sobel_x_kernel : List Int := [-1, 0, 1, -2, 0, 2, -1, 0, 1]

/-- First separable Sobel-X table, `sobel_x_separable[3]` (line 17). -/
def sobel_x_separable : List Int := [1, 2, 1]

/-- Second separable Sobel-X table, `sobel_x_separable_2[3]` (line 18). -/
def sobel_x_separable_2 : List Int := [1, 0, -1]

/-- Dense Sobel-Y operator, `sobel_y_kernel[9]` (line 21). -/
def sobel_y_kernel : List Int := [-1, -2, -1, 0, 0, 0, 1, 2, 1]

/-- First separable Sobel-Y table, `sobel_y_separable[3]` (line 23). -/
def sobel_y_separable : List Int := [1, 0, -1]

/-- Second separable Sobel-Y table, `sobel_y_separable_2[3]` (line 24). -/
def sobel_y_separable_2 : List Int := [1, 2, 1]

/-- Read of a constant table at an index (`t[i]`); `none` outside the table. -/
def tableAt (t : List Int) (i : Nat) : Option Int := t.get? i

/-- Outer product entry `a[r] * b[c]` of two one-dimensional tables: the dense
coefficient a two-pass separable convolution with `a` and `b` amounts to. -/
def outerAt (a b : List Int) (r c : Nat) : Option Int :=
  match tableAt a r, tableAt b c with
  | some x, some y => some (x * y)
  | _, _ => none

/-! ## Execution modes (lines 25-42) -/

/-- The `enum Mode` of the source. -/
inductive Mode
  | HARRIS
  | SHI_TOMASI
  | CANNY
  | CANNY_MANUAL
  | CANNY_GUI
  | OTSU_BIN
  | OPTICAL
  deriving DecidableEq, Repr

/-! ## Strings: the `std::string` operations `main` uses -/

/-- A `std::string` / C string, as its list of characters. -/
abbrev Str := List Char

/-- The value `std::string::npos`, the largest `size_t`. -/
def npos : Nat := 2 ^ 64 - 1

/-- The call `s.substr(pos, n)` for `pos ≤ s.size()`. -/
def substr (s : Str) (pos n : Nat) : Str := (s.drop pos).take n

/-- The call `s.substr(pos)` for `pos ≤ s.size()`. -/
def substrFrom (s : Str) (pos : Nat) : Str := s.drop pos

/-- Index of the last occurrence of `c` among the characters from position
`i` on, given the best index found so far. -/
def lastIndexFrom (c : Char) : Str → Nat → Option Nat → Option Nat
  | [], _, best => best
  | x :: xs, i, best => lastIndexFrom c xs (i + 1) (if x = c then some i else best)

/-- The call `s.find_last_of(".")`-style search for one character: the index of
its last occurrence, `npos` when it does not occur. -/
def find_last_of (s : Str) (c : Char) : Nat :=
  match lastIndexFrom c s 0 none with
  | some i => i
  | none => npos

/-- The expression `filename.substr(filename.find_last_of(".") + 1)` of lines
618 and 722; the addition is on `size_t`, so `npos + 1` wraps to `0` and a
name without a dot is its own extension. -/
def extOf (filename : Str) : Str :=
  substrFrom filename ((find_last_of filename '.' + 1) % 2 ^ 64)

/-- The C `isspace` test in the "C" locale. -/
def isspace (c : Char) : Bool :=
  c = ' ' || (9 ≤ c.toNat && c.toNat ≤ 13)

/-- Value of a run of decimal digits. -/
def digitsValue (ds : Str) : Int :=
  ds.foldl (fun acc c => acc * 10 + ((c.toNat - '0'.toNat : Nat) : Int)) 0

/-- The call `std::stoi(s)`: leading white space, an optional sign, then decimal
digits; what follows the digits is ignored. `none` stands for the two
exceptions it throws (`invalid_argument` when there is no digit,
`out_of_range` when the value does not fit an `int`); both derive from
`std::exception`. -/
def stoi (s : Str) : Option Int :=
  let s1 := s.dropWhile isspace
  let neg := s1.head? = some '-'
  let s2 := if s1.head? = some '-' ∨ s1.head? = some '+' then s1.drop 1 else s1
  let ds := s2.takeWhile Char.isDigit
  if ds = [] then none
  else
    let v : Int := if neg then - digitsValue ds else digitsValue ds
    if v < -(2 : Int) ^ 31 ∨ (2 : Int) ^ 31 - 1 < v then none else some v

def str_H : Str := ['-', 'H']
def str_C : Str := ['-', 'C']
def str_O : Str := ['-', 'O']
def str_S : Str := ['-', 'S']
def str_OP : Str := ['-', 'O', 'P']
def str_f : Str := ['-', 'f', '=']
def str_f2 : Str := ['-', 'f', '2', '=']
def str_g : Str := ['-', 'g']
def str_l : Str := ['-', 'l', '=']
def str_h : Str := ['-', 'h', '=']
def str_jpg : Str := ['j', 'p', 'g']
def str_png : Str := ['p', 'n', 'g']
def str_mp4 : Str := ['m', 'p', '4']

/-! ## `main`: argument parsing and dispatch (lines 570-759) -/

/-- The pipeline call `main` ends with (lines 742-756). -/
inductive Call
  | handleImage (mode : Mode) (filename : Str) (low_threshold high_threshold : Int)
  | handleVideo (mode : Mode) (filename : Str) (low_threshold high_threshold : Int)
  | opticalNaive (filename filename2 : Str) (video : Bool)
  deriving DecidableEq, Repr

/-- What a run of `main` does: the pipeline call it makes, if any, and the code
it returns, after that call has returned. -/
structure MainResult where
  code : Int
  call : Option Call
  deriving DecidableEq, Repr

/-- Every `return -1` of the parsing region: no pipeline has been called. -/
def usageError : MainResult := ⟨-1, none⟩

/-- Lines 580-604: the mode selected by `argv[1]`, compared with `strcmp`. -/
def parseMode (a : Str) : Option Mode :=
  if a = str_H then some Mode.HARRIS
  else if a = str_C then some Mode.CANNY
  else if a = str_O then some Mode.OTSU_BIN
  else if a = str_S then some Mode.SHI_TOMASI
  else if a = str_OP then some Mode.OPTICAL
  else none

/-- The local variables of `main` at the end of the parsing region. -/
structure Parsed where
  mode : Mode
  is_video : Bool
  filename : Str
  filename2 : Str
  low_threshold : Int
  high_threshold : Int
  deriving DecidableEq, Repr

/-- Lines 639-709: the extra arguments of `-C` (reached with `argc > 3`). -/
def parseCanny (argv : List Str) (p : Parsed) : Option Parsed :=
  let arg := argv.getD 3 []
  if arg = str_g then
    if p.is_video then none
    else some { p with mode := Mode.CANNY_GUI }
  else if argv.length < 5 then none
  else if substr arg 0 3 = str_l then
    if substrFrom arg 3 = [] then none
    else
      match stoi (substrFrom arg 3) with
      | none => none
      | some low =>
        let arg4 := argv.getD 4 []
        if substr arg4 0 3 = str_h then
          if substrFrom arg4 3 = [] then none
          else
            match stoi (substrFrom arg4 3) with
            | none => none
            | some high =>
              some { p with mode := Mode.CANNY_MANUAL, low_threshold := low,
                            high_threshold := high }
        else none
  else none

/-- Lines 710-738: the extra argument of `-OP` (reached with `argc > 3`). The
emptiness test and the extension are taken from `filename`, as in the source
(lines 716 and 722). -/
def parseOptical (argv : List Str) (p : Parsed) : Option Parsed :=
  let arg := argv.getD 3 []
  if substr arg 0 4 = str_f2 then
    let filename2 := substrFrom arg 4
    if p.filename = [] then none
    else
      let ext := extOf p.filename
      if ext ≠ str_jpg ∧ ext ≠ str_png ∧ ext ≠ str_mp4 then none
      else
        some { p with filename2 := filename2,
                      is_video := if ext = str_mp4 then true else p.is_video }
  else none

/-- Lines 575-739: the parsing region. `none` is a `return -1`. -/
def parseArgs (argv : List Str) : Option Parsed :=
  if argv.length < 3 then none
  else
    match parseMode (argv.getD 1 []) with
    | none => none
    | some mode =>
      let arg := argv.getD 2 []
      if substr arg 0 3 = str_f then
        let filename := substrFrom arg 3
        if filename = [] then none
        else
          let ext := extOf filename
          if ext ≠ str_jpg ∧ ext ≠ str_png ∧ ext ≠ str_mp4 then none
          else
            let p : Parsed :=
              { mode := mode, is_video := if ext = str_mp4 then true else false,
                filename := filename, filename2 := [],
                low_threshold := 0, high_threshold := 0 }
            if 3 < argv.length then
              if mode = Mode.CANNY then parseCanny argv p
              else if mode = Mode.OPTICAL then parseOptical argv p
              else some p
            else some p
      else none

/-- Lines 742-756: the driver code. -/
def dispatch (p : Parsed) : Call :=
  if p.mode = Mode.OPTICAL then Call.opticalNaive p.filename p.filename2 p.is_video
  else if p.is_video then
    Call.handleVideo p.mode p.filename p.low_threshold p.high_threshold
  else Call.handleImage p.mode p.filename p.low_threshold p.high_threshold

/-- The function `main`, on the argument vector `argv` (so `argc = argv.length`). -/
def main (argv : List Str) : MainResult :=
  match parseArgs argv with
  | none => usageError
  | some p => ⟨0, some (dispatch p)⟩

/-! ## The machine the pipelines run on -/

/-- Device pointers declared in `handleImage` (lines 92-115) and `opticalNaive`
(lines 365-388). -/
inductive DevBuf
  | img_d | img_d_2
  | img_gray_d | img_gray_d_2
  | img_blurred_d | img_blurred_d_2
  | img_harris_d
  | img_sobel_x_d | img_sobel_x_d_2
  | img_sobel_y_d | img_sobel_y_d_2
  | sobel_x_kernel_d | sobel_x_separable_d | sobel_x_separable_2_d
  | sobel_y_kernel_d | sobel_y_separable_d | sobel_y_separable_2_d
  | gaussian_kernel_d
  | harris_map1_d | harris_map2_d
  | idx1Mapping_d | idx2Mapping_d
  deriving DecidableEq, Repr

/-- Host blocks obtained from `malloc` or from `computeGaussianKernel`. -/
inductive HostBuf
  | img_h | img_gray_h | img_grayh2 | img_harris_h | gaussian_kernel
  | idx1Mapping_h | idx2Mapping_h
  deriving DecidableEq, Repr

/-- The `cv::Mat` variables of the pipelines. -/
inductive HostMat
  | img | img_out | prev_frame | next_frame
  deriving DecidableEq, Repr

/-- The constant tables uploaded to the device. -/
inductive HostTable
  | sobel_x_kernel | sobel_x_separable | sobel_x_separable_2
  | sobel_y_kernel | sobel_y_separable | sobel_y_separable_2
  | gaussian_kernel
  deriving DecidableEq, Repr

/-- The colour conversions requested from `cv::cvtColor`. -/
inductive ColorCode
  | BGR2RGBA | RGBA2BGR
  deriving DecidableEq, Repr

/-- The messages written to `std::cerr` by the pipelines. -/
inductive ErrMsg
  | unableToLoadImage | unableToLoadVideo
  deriving DecidableEq, Repr

/-- The windows shown. -/
inductive Window
  | outputImage | outputImageMode (mode : Mode) | frame
  deriving DecidableEq, Repr

/-- One external call, with the buffers and scalars it is given. Sizes are in
bytes. -/
inductive Event
  | imread (filename : Str)
  | videoCapture (filename : Str)
  | frameRead (m : HostMat)
  | cerr (msg : ErrMsg)
  | cvtColor (m : HostMat) (code : ColorCode)
  | clone (dst src : HostMat)
  | release (m : HostMat)
  | malloc (p : HostBuf) (bytes : Nat)
  | free (p : HostBuf)
  | computeGaussianKernel (width : Nat)
  | cudaMalloc (p : DevBuf) (bytes : Nat)
  | cudaFree (p : DevBuf)
  | cudaHostRegister (m : HostMat) (bytes : Nat)
  | cudaHostUnregister (m : HostMat)
  | memcpyFrame (dst : DevBuf) (src : HostMat) (bytes : Nat)
  | memcpyTable (dst : DevBuf) (src : HostTable) (bytes : Nat)
  | memcpyD2H (dst : HostBuf) (src : DevBuf) (bytes : Nat)
  | memcpyD2D (dst src : DevBuf) (bytes : Nat)
  | cudaDeviceSynchronize
  | cudaGetLastError
  | rgbToGrayKernelWrap (src dst : DevBuf) (width height : Nat)
  | convolutionGPUWrap (dst src : DevBuf) (width height : Nat) (kernel : DevBuf)
      (kernel_width : Nat)
  | harrisMainKernelWrap (host : HostMat) (img sobel_x sobel_y : DevBuf)
      (width height : Nat) (gaussian : DevBuf) (kernel_width : Nat) (shi_tomasi : Bool)
      (map : Option DevBuf)
  | otsuThreshold (src : DevBuf) (width height : Nat)
  | cannyMainKernelWrap (host : HostMat) (img sobel_x sobel_y : DevBuf)
      (width height : Nat) (low high : Int) (gaussian : DevBuf) (kernel_width : Nat)
      (from_video : Bool)
  | binarizeImgWrapper (host : HostMat) (gray : DevBuf) (width height : Nat)
      (threshold : Int)
  | mapCommonKernelWrap (map1 map2 : DevBuf) (width height : Nat) (window : Nat)
      (idx1 idx2 : DevBuf)
  | namedWindow (w : Window)
  | createTrackbar (high : Bool) (count : Nat)
  | imshow (w : Window) (m : HostMat)
  | waitKey (delay : Nat) (key : Int)
  | arrowedLine (x1 y1 x2 y2 : Int)
  | averageArrow (validCount : Nat)
  deriving DecidableEq, Repr

/-- One turn of the HighGUI event pump, that is one `cv::waitKey` call: the key
code it returns (`-1` when no key was pressed) and where the two trackbars
stand afterwards. -/
structure Tick where
  key : Int
  thresh_l : Int
  thresh_h : Int
  deriving DecidableEq, Repr

/-- A `cv::Mat`: its dimensions and its pixel data. -/
structure Mat (α : Type) where
  cols : Nat
  rows : Nat
  channels : Nat
  data : α

/-- The test `m.empty()`: no element. -/
def Mat.empty {α : Type} (m : Mat α) : Bool := m.cols = 0 || m.rows = 0

/-- Results of `harrisMainKernelWrap`: the annotated host frame, the device
frame, the response map and the returned threshold. -/
structure HarrisOut (α : Type) where
  host : α
  img : α
  map : α
  threshold : α

/-- Results of `cannyMainKernelWrap`: the annotated host frame and the device
frame. -/
structure CannyOut (α : Type) where
  host : α
  img : α

/-- Results of `mapCommonKernelWrap`: the two index arrays and the returned
number of accepted matches. -/
structure MapOut (α : Type) where
  idx1 : α
  idx2 : α
  count : Int

/-- What `main.cpp` uses and does not define: the macro `FILTER_WIDTH` and the
helper `computeGaussianKernel` of `include/utils.h` (called with the macros
`FILTER_WIDTH` and `FILTER_SIGMA`), the kernel wrappers of
`include/cuda_kernel.cuh` (the macros `K` and `ALPHA`, the tolerance `0.5` and the
window `5` are part of the functions given here), the files `cv::imread` and
`cv::VideoCapture` find, and the pixel work of `cv::cvtColor`. Buffer contents
are values of the type `α`. -/
structure Ext (α : Type) where
  FILTER_WIDTH : Nat
  noData : α
  imread : Str → Mat α
  videoFrames : Str → Option (List (Mat α))
  cvtColor : ColorCode → α → α
  hostTable : List Int → α
  computeGaussianKernel : Nat → α
  rgbToGray : α → Nat → Nat → α
  convolution : α → Nat → Nat → α → Nat → α
  harris : α → α → α → α → Nat → Nat → α → Nat → Bool → HarrisOut α
  otsuThreshold : α → Nat → Nat → Int
  canny : α → α → α → α → Nat → Nat → Int → Int → α → Nat → Bool → CannyOut α
  binarize : α → α → Nat → Nat → Int → α
  mapCommon : α → α → Nat → Nat → α → MapOut α
  asInts : α → List Int

/-- The machine state: contents of the device buffers, the external calls made
so far, the user-interface turns still to come, and the pairs of response maps
(map 1, map 2) that the calls of `mapCommonKernelWrap` made so far were given. -/
structure St (α : Type) where
  mem : DevBuf → α
  trace : List Event
  ui : List Tick
  mapCommonArgs : List (α × α)

variable {α : Type}

/-- Record external calls. -/
def St.log (s : St α) (es : List Event) : St α := { s with trace := s.trace ++ es }

/-- Overwrite one device buffer. -/
def St.write (s : St α) (p : DevBuf) (v : α) : St α :=
  { s with mem := fun q => if q = p then v else s.mem q }

/-- The call `cv::waitKey(1)` outside the trackbar loop: the key of the next
turn, `-1` when the user does nothing more. -/
def waitKey1 (s : St α) : Int × St α :=
  match s.ui with
  | [] => (-1, s.log [Event.waitKey 1 (-1)])
  | t :: ts => (t.key, { s with trace := s.trace ++ [Event.waitKey 1 t.key], ui := ts })

/-- The call `cv::waitKey(0)`, which blocks until a key is pressed: the next
turn is that key press; `none` when no key is ever pressed. -/
def waitKey0 (s : St α) : Option (St α) :=
  match s.ui with
  | [] => none
  | t :: ts => some { s with trace := s.trace ++ [Event.waitKey 0 t.key], ui := ts }

/-- How a call ends when it ends: it returns, or an exception leaves it. The
only `try` blocks of `main.cpp` enclose the `std::stoi` calls of lines 665 and
689, so an exception that leaves a pipeline ends the process, in the state `s`. -/
inductive Ending (α : Type)
  | returned (s : St α)
  | thrown (s : St α)

/-- The state at the return of a call, when the call returns. -/
def returnOf (r : Option (Ending α)) : Option (St α) :=
  match r with
  | some (Ending.returned s) => some s
  | _ => none

/-- The buffer a `cudaMalloc` call allocates. -/
def allocOf : Event → Option DevBuf
  | Event.cudaMalloc p _ => some p
  | _ => none

/-- The buffer a `cudaFree` call releases. -/
def freeOf : Event → Option DevBuf
  | Event.cudaFree p => some p
  | _ => none

/-- The thresholds `(low, high)` a call to the Canny stage is given. -/
def cannyOf : Event → Option (Int × Int)
  | Event.cannyMainKernelWrap _ _ _ _ _ _ low high _ _ _ => some (low, high)
  | _ => none

/-- The key a `cv::waitKey` call returns. -/
def keyOf : Event → Option Int
  | Event.waitKey _ key => some key
  | _ => none

/-- The host frame a `cudaHostRegister` call pins. -/
def pinOf : Event → Option HostMat
  | Event.cudaHostRegister m _ => some m
  | _ => none

/-- The host frame a `cudaHostUnregister` call un-pins. -/
def unpinOf : Event → Option HostMat
  | Event.cudaHostUnregister m => some m
  | _ => none

/-- The device buffers a trace allocates, in order. -/
def allocated (es : List Event) : List DevBuf := es.filterMap allocOf

/-- The device buffers a trace frees, in order. -/
def freed (es : List Event) : List DevBuf := es.filterMap freeOf

/-- The thresholds of the calls to the Canny stage in a trace, in order. -/
def cannyCalls (es : List Event) : List (Int × Int) := es.filterMap cannyOf

/-- The keys returned by the `cv::waitKey` calls of a trace, in order. -/
def keyReads (es : List Event) : List Int := es.filterMap keyOf

/-- The host frames a trace pins, in order. -/
def pinned (es : List Event) : List HostMat := es.filterMap pinOf

/-- The host frames a trace un-pins, in order. -/
def unpinned (es : List Event) : List HostMat := es.filterMap unpinOf

/-! ## `handleImage` (lines 62-271) -/

/-- Lines 100-148 of `handleImage`: the host blocks, the Gaussian table, the
thirteen device allocations, the pinning of the frame and the uploads. The byte
counts are the exact products; the source forms `width * height` and
`width * height * channels` in `int` (lines 85-86), so these are its values as
long as the two products fit an `int`. -/
def hiSetup (E : Ext α) (img : Mat α) (s : St α) : St α :=
  let img_size_h := img.cols * img.rows * img.channels * 1
  let img_gray_size_h := img.cols * img.rows * 4
  let fw := E.FILTER_WIDTH
  let s := s.log
    [ Event.malloc HostBuf.img_h img_size_h,
      Event.malloc HostBuf.img_gray_h img_gray_size_h,
      Event.malloc HostBuf.img_grayh2 img_gray_size_h,
      Event.malloc HostBuf.img_harris_h img_gray_size_h,
      Event.computeGaussianKernel fw,
      Event.cudaMalloc DevBuf.img_d img_size_h,
      Event.cudaMalloc DevBuf.img_gray_d img_gray_size_h,
      Event.cudaMalloc DevBuf.img_blurred_d img_gray_size_h,
      Event.cudaMalloc DevBuf.gaussian_kernel_d (fw * fw * 4),
      Event.cudaMalloc DevBuf.sobel_x_kernel_d (3 * 3 * 4),
      Event.cudaMalloc DevBuf.sobel_x_separable_d (3 * 4),
      Event.cudaMalloc DevBuf.sobel_x_separable_2_d (3 * 4),
      Event.cudaMalloc DevBuf.sobel_y_kernel_d (3 * 3 * 4),
      Event.cudaMalloc DevBuf.sobel_y_separable_d (3 * 4),
      Event.cudaMalloc DevBuf.sobel_y_separable_2_d (3 * 4),
      Event.cudaMalloc DevBuf.img_sobel_x_d img_gray_size_h,
      Event.cudaMalloc DevBuf.img_sobel_y_d img_gray_size_h,
      Event.cudaMalloc DevBuf.img_harris_d img_gray_size_h,
      Event.cudaHostRegister HostMat.img img_size_h ]
  let s := (s.write DevBuf.img_d img.data).log
    [Event.memcpyFrame DevBuf.img_d HostMat.img img_size_h]
  let s := (s.write DevBuf.gaussian_kernel_d (E.computeGaussianKernel fw)).log
    [Event.memcpyTable DevBuf.gaussian_kernel_d HostTable.gaussian_kernel (fw * fw * 4)]
  let s := (s.write DevBuf.sobel_x_kernel_d (E.hostTable sobel_x_kernel)).log
    [Event.memcpyTable DevBuf.sobel_x_kernel_d HostTable.sobel_x_kernel (3 * 3 * 4)]
  let s := (s.write DevBuf.sobel_y_kernel_d (E.hostTable sobel_y_kernel)).log
    [Event.memcpyTable DevBuf.sobel_y_kernel_d HostTable.sobel_y_kernel (3 * 3 * 4)]
  let s := (s.write DevBuf.sobel_x_separable_d (E.hostTable sobel_x_separable)).log
    [Event.memcpyTable DevBuf.sobel_x_separable_d HostTable.sobel_x_separable (3 * 4)]
  let s := (s.write DevBuf.sobel_x_separable_2_d (E.hostTable sobel_x_separable_2)).log
    [Event.memcpyTable DevBuf.sobel_x_separable_2_d HostTable.sobel_x_separable_2 (3 * 4)]
  let s := (s.write DevBuf.sobel_y_separable_d (E.hostTable sobel_y_separable)).log
    [Event.memcpyTable DevBuf.sobel_y_separable_d HostTable.sobel_y_separable (3 * 4)]
  (s.write DevBuf.sobel_y_separable_2_d (E.hostTable sobel_y_separable_2)).log
    [Event.memcpyTable DevBuf.sobel_y_separable_2_d HostTable.sobel_y_separable_2 (3 * 4)]

/-- The call `rgbToGrayKernelWrap(src, dst, width, height)`. -/
def rgbToGrayKernelWrap (E : Ext α) (src dst : DevBuf) (width height : Nat) (s : St α) :
    St α :=
  (s.write dst (E.rgbToGray (s.mem src) width height)).log
    [Event.rgbToGrayKernelWrap src dst width height]

/-- The call `convolutionGPUWrap(dst, src, width, height, kernel, kernel_width)`. -/
def convolutionGPUWrap (E : Ext α) (dst src : DevBuf) (width height : Nat)
    (kernel : DevBuf) (kernel_width : Nat) (s : St α) : St α :=
  (s.write dst (E.convolution (s.mem src) width height (s.mem kernel) kernel_width)).log
    [Event.convolutionGPUWrap dst src width height kernel kernel_width]

/-- Lines 153-166 of `handleImage`: gray conversion, Gaussian blur, Sobel X and
Sobel Y, the stages common to all modes. -/
def hiCommon (E : Ext α) (width height : Nat) (s : St α) : St α :=
  let s := rgbToGrayKernelWrap E DevBuf.img_d DevBuf.img_gray_d width height s
  let s := convolutionGPUWrap E DevBuf.img_blurred_d DevBuf.img_gray_d width height
    DevBuf.gaussian_kernel_d E.FILTER_WIDTH s
  let s := convolutionGPUWrap E DevBuf.img_sobel_x_d DevBuf.img_blurred_d width height
    DevBuf.sobel_x_kernel_d 3 s
  convolutionGPUWrap E DevBuf.img_sobel_y_d DevBuf.img_blurred_d width height
    DevBuf.sobel_y_kernel_d 3 s

/-- The trace entry of a call to the Canny stage by `handleImage`: the buffers
are the same at its three call sites, the thresholds differ. -/
def cannyEvent (E : Ext α) (width height : Nat) (low high : Int) (from_video : Bool) :
    Event :=
  Event.cannyMainKernelWrap HostMat.img DevBuf.img_d DevBuf.img_sobel_x_d
    DevBuf.img_sobel_y_d width height low high DevBuf.gaussian_kernel_d E.FILTER_WIDTH
    from_video

/-- One call `cannyMainKernelWrap((uchar4 *)img.data, img_d, img_sobel_x_d,
img_sobel_y_d, width, height, low, high, gaussian_kernel_d, FILTER_WIDTH,
from_video)` (lines 187, 190 and 201): the new host pixels and the new state. -/
def cannyCall (E : Ext α) (width height : Nat) (low high : Int) (from_video : Bool)
    (data : α) (s : St α) : α × St α :=
  let r := E.canny data (s.mem DevBuf.img_d) (s.mem DevBuf.img_sobel_x_d)
    (s.mem DevBuf.img_sobel_y_d) width height low high (s.mem DevBuf.gaussian_kernel_d)
    E.FILTER_WIDTH from_video
  (r.host, (s.write DevBuf.img_d r.img).log [cannyEvent E width height low high from_video])

/-- One call `harrisMainKernelWrap((uchar4 *)img.data, img_d, img_sobel_x_d,
img_sobel_y_d, width, height, K, ALPHA, gaussian_kernel_d, FILTER_WIDTH, shi,
nullptr)` (lines 178 and 182). -/
def harrisCall (E : Ext α) (width height : Nat) (shi : Bool) (data : α) (s : St α) :
    α × St α :=
  let r := E.harris data (s.mem DevBuf.img_d) (s.mem DevBuf.img_sobel_x_d)
    (s.mem DevBuf.img_sobel_y_d) width height (s.mem DevBuf.gaussian_kernel_d)
    E.FILTER_WIDTH shi
  (r.host, (s.write DevBuf.img_d r.img).log
    [Event.harrisMainKernelWrap HostMat.img DevBuf.img_d DevBuf.img_sobel_x_d
      DevBuf.img_sobel_y_d width height DevBuf.gaussian_kernel_d E.FILTER_WIDTH shi none])

/-- Lines 199-207 of `handleImage`: the `while (true)` of the trackbar mode, run
on the turns of the event pump still to come. Each turn runs the Canny stage
with the current trackbar values, shows the frame and reads a key; the loop is
left on ESC (27). `none`: ESC never comes and the loop never ends. -/
def cannyGuiLoop (E : Ext α) (width height : Nat) (from_video : Bool) :
    List Tick → Int → Int → α → St α → Option (α × St α)
  | [], _, _, _, _ => none
  | t :: ts, thresh_l, thresh_h, data, s =>
    let r := cannyCall E width height thresh_l thresh_h from_video data s
    let s1 : St α :=
      { mem := r.2.mem,
        trace := r.2.trace ++
          [Event.imshow Window.outputImage HostMat.img, Event.waitKey 1 t.key],
        ui := ts,
        mapCommonArgs := r.2.mapCommonArgs }
    if t.key = 27 then some (r.1, s1)
    else cannyGuiLoop E width height from_video ts t.thresh_l t.thresh_h r.1 s1

/-- Lines 173-214 of `handleImage`: the `switch (mode)`. The result carries the
host pixels of `img` after the stage. The switch has no case for `OPTICAL`. -/
def hiSwitch (E : Ext α) (mode : Mode) (width height : Nat)
    (low_threshold high_threshold : Int) (from_video : Bool) (data : α) (s : St α) :
    Option (α × St α) :=
  match mode with
  | Mode.HARRIS => some (harrisCall E width height false data s)
  | Mode.SHI_TOMASI => some (harrisCall E width height true data s)
  | Mode.CANNY =>
    let high_threshold := E.otsuThreshold (s.mem DevBuf.img_blurred_d) width height
    let low_threshold := Int.tdiv high_threshold 2
    some (cannyCall E width height low_threshold high_threshold from_video data
      (s.log [Event.otsuThreshold DevBuf.img_blurred_d width height]))
  | Mode.CANNY_MANUAL =>
    some (cannyCall E width height low_threshold high_threshold from_video data s)
  | Mode.CANNY_GUI =>
    let thresh_h : Int := 100
    let thresh_l : Int := 50
    let s := s.log [Event.namedWindow Window.outputImage, Event.createTrackbar true 255,
      Event.createTrackbar false 255]
    cannyGuiLoop E width height from_video s.ui thresh_l thresh_h data s
  | Mode.OTSU_BIN =>
    let threshold := E.otsuThreshold (s.mem DevBuf.img_gray_d) width height
    some (E.binarize data (s.mem DevBuf.img_gray_d) width height threshold,
      s.log [Event.otsuThreshold DevBuf.img_gray_d width height,
        Event.binarizeImgWrapper HostMat.img DevBuf.img_gray_d width height threshold])
  | Mode.OPTICAL => some (data, s)

/-- Lines 220-245 of `handleImage`: the result is shown, a key is awaited when
the frame does not come from a video, the frame is un-pinned and released; all
of it only when the mode is not `CANNY_GUI`. In mode `OTSU_BIN` the image given
to `cv::cvtColor(img_out, img_out, cv::COLOR_RGBA2BGR)` (line 234) has one
channel (`CV_8UC1`, line 226); that conversion takes three or four channels and
throws a `cv::Exception` on any other source, so the call ends there. `none`:
the wait of line 241 never ends. -/
def hiShow (mode : Mode) (from_video : Bool) (s : St α) : Option (Ending α) :=
  if mode ≠ Mode.CANNY_GUI then
    let s := s.log [Event.cvtColor HostMat.img_out ColorCode.RGBA2BGR]
    if mode = Mode.OTSU_BIN then some (Ending.thrown s)
    else
      let s := s.log [Event.imshow (Window.outputImageMode mode) HostMat.img_out]
      let waited := if from_video = false then waitKey0 s else some s
      match waited with
      | none => none
      | some s =>
        some (Ending.returned
          (s.log [Event.cudaHostUnregister HostMat.img, Event.release HostMat.img]))
  else some (Ending.returned s)

/-- Lines 248-266 of `handleImage`: the deallocations. -/
def hiRelease (s : St α) : St α :=
  s.log
    [ Event.cudaFree DevBuf.img_d,
      Event.cudaFree DevBuf.img_gray_d,
      Event.cudaFree DevBuf.img_blurred_d,
      Event.cudaFree DevBuf.gaussian_kernel_d,
      Event.cudaFree DevBuf.sobel_x_kernel_d,
      Event.cudaFree DevBuf.sobel_y_kernel_d,
      Event.cudaFree DevBuf.sobel_x_separable_d,
      Event.cudaFree DevBuf.sobel_x_separable_2_d,
      Event.cudaFree DevBuf.img_sobel_x_d,
      Event.cudaFree DevBuf.img_sobel_y_d,
      Event.cudaFree DevBuf.img_harris_d,
      Event.free HostBuf.img_gray_h,
      Event.free HostBuf.img_harris_h,
      Event.free HostBuf.img_grayh2,
      Event.free HostBuf.gaussian_kernel,
      Event.free HostBuf.img_h,
      Event.cudaGetLastError ]

/-- The conversion `cv::cvtColor(m, m, cv::COLOR_BGR2RGBA)`: four channels. -/
def toRGBA (E : Ext α) (m : Mat α) : Mat α :=
  { m with channels := 4, data := E.cvtColor ColorCode.BGR2RGBA m.data }

/-- Lines 79-271 of `handleImage`: what it does with the frame `img` once it
has one. The frame is not empty: one read from a file has passed the test of
line 69, and `handleVideo` hands over a frame of a video only after the test
of line 295; so the conversion of line 79 returns. An exception that leaves
the display block leaves `handleImage` before the deallocations. -/
def handleImageBody (E : Ext α) (mode : Mode) (low_threshold high_threshold : Int)
    (from_video : Bool) (img : Mat α) (s : St α) : Option (Ending α) :=
  let img := toRGBA E img
  let s := s.log [Event.cvtColor HostMat.img ColorCode.BGR2RGBA]
  let width := img.cols
  let height := img.rows
  let s := hiCommon E width height (hiSetup E img s)
  match hiSwitch E mode width height low_threshold high_threshold from_video img.data s with
  | none => none
  | some r =>
    match hiShow mode from_video r.2 with
    | none => none
    | some (Ending.thrown s) => some (Ending.thrown s)
    | some (Ending.returned s) => some (Ending.returned (hiRelease s))

/-- The function `handleImage(mode, filename, low_threshold, high_threshold,
from_video, img_v)`, with the way it ends; `none` when it never ends (a wait for
a key that is never pressed). -/
def handleImageRun (E : Ext α) (mode : Mode) (filename : Str)
    (low_threshold high_threshold : Int) (from_video : Bool) (img_v : Mat α) (s : St α) :
    Option (Ending α) :=
  if from_video = false then
    let img := E.imread filename
    let s := s.log [Event.imread filename]
    if img.empty = true then
      some (Ending.returned (s.log [Event.cerr ErrMsg.unableToLoadImage]))
    else handleImageBody E mode low_threshold high_threshold from_video img s
  else handleImageBody E mode low_threshold high_threshold from_video img_v s

/-- The state at the return of `handleImage(mode, filename, low_threshold,
high_threshold, from_video, img_v)`; `none` when it does not return: it never
ends, or an exception leaves it. -/
def handleImage (E : Ext α) (mode : Mode) (filename : Str)
    (low_threshold high_threshold : Int) (from_video : Bool) (img_v : Mat α) (s : St α) :
    Option (St α) :=
  returnOf (handleImageRun E mode filename low_threshold high_threshold from_video img_v s)

/-! ## `handleVideo` (lines 280-314) -/

/-- One iteration of `handleVideo` as seen from outside: the frame handed to
`handleImage` and the key read by the `cv::waitKey(1)` of line 304. -/
structure VideoIter (α : Type) where
  frame : Mat α
  key : Int

/-- Lines 290-313 of `handleVideo`: the `while (cap.isOpened())`, on the frames
the capture still holds (reading past the last one gives an empty frame). The
result is the way the loop ends together with the iterations in which
`handleImage` returned, in order; an exception that leaves `handleImage`
leaves the loop too. `none` when `handleImage` never ends. -/
def handleVideoLoop (E : Ext α) (mode : Mode) (filename : Str)
    (low_threshold high_threshold : Int) :
    List (Mat α) → St α → Option (List (VideoIter α) × Ending α)
  | [], s => some ([], Ending.returned (s.log [Event.frameRead HostMat.img]))
  | img :: rest, s =>
    let s := s.log [Event.frameRead HostMat.img]
    if img.empty = true then some ([], Ending.returned s)
    else
      match handleImageRun E mode filename low_threshold high_threshold true img s with
      | none => none
      | some (Ending.thrown s) => some ([], Ending.thrown s)
      | some (Ending.returned s) =>
        let k := waitKey1 s
        if k.1 = 27 then some ([⟨img, k.1⟩], Ending.returned k.2)
        else
          match handleVideoLoop E mode filename low_threshold high_threshold rest k.2 with
          | none => none
          | some r => some (⟨img, k.1⟩ :: r.1, r.2)

/-- The function `handleVideo(mode, filename, low_threshold, high_threshold)`,
with the way it ends and the iterations in which `handleImage` returned. -/
def handleVideoRun (E : Ext α) (mode : Mode) (filename : Str)
    (low_threshold high_threshold : Int) (s : St α) :
    Option (List (VideoIter α) × Ending α) :=
  let s := s.log [Event.videoCapture filename]
  match E.videoFrames filename with
  | none => some ([], Ending.returned (s.log [Event.cerr ErrMsg.unableToLoadVideo]))
  | some frames => handleVideoLoop E mode filename low_threshold high_threshold frames s

/-- The iterations and the state at the return of `handleVideo(mode, filename,
low_threshold, high_threshold)`; `none` when it does not return. -/
def handleVideo (E : Ext α) (mode : Mode) (filename : Str)
    (low_threshold high_threshold : Int) (s : St α) :
    Option (List (VideoIter α) × St α) :=
  match handleVideoRun E mode filename low_threshold high_threshold s with
  | some (its, Ending.returned s) => some (its, s)
  | _ => none

/-! ## `opticalNaive` (lines 325-568) -/

/-- A motion vector drawn by `cv::arrowedLine(next_frame, pt1, pt2, ...)`. -/
structure Arrow where
  x1 : Int
  y1 : Int
  x2 : Int
  y2 : Int
  deriving DecidableEq, Repr

/-- Lines 480-499 of `opticalNaive`: the `for` loop over the matches, from
index `i` with `n` iterations to go, on the host index arrays. The result lists
the arrows drawn, so `validCount` is its length. `none` when an index array is
read outside its bounds or a point is decoded with `next_frame.cols = 0`
(undefined behaviour). -/
def motionFrom (idx1 idx2 : List Int) (next_cols next_rows prev_cols prev_rows : Int) :
    Nat → Nat → Option (List Arrow)
  | 0, _ => some []
  | n + 1, i =>
    match idx1.get? i, idx2.get? i with
    | some a, some b =>
      if next_cols = 0 then none
      else
        let pt1x := Int.tmod a next_cols
        let pt1y := Int.tdiv a next_cols
        let pt2x := Int.tmod b next_cols
        let pt2y := Int.tdiv b next_cols
        match motionFrom idx1 idx2 next_cols next_rows prev_cols prev_rows n (i + 1) with
        | none => none
        | some rest =>
          if (pt1x ≠ pt2x ∨ pt1y ≠ pt2y) ∧
              0 ≤ pt1x ∧ 0 ≤ pt1y ∧ pt1x < prev_cols ∧ pt1y < prev_rows ∧
              0 ≤ pt2x ∧ 0 ≤ pt2y ∧ pt2x < next_cols ∧ pt2y < next_rows then
            some (⟨pt1x, pt1y, pt2x, pt2y⟩ :: rest)
          else some rest
    | _, _ => none

/-- The motion-vector loop for `mappingCount` matches. -/
def motionVectors (idx1 idx2 : List Int) (mappingCount : Int)
    (next_cols next_rows prev_cols prev_rows : Int) : Option (List Arrow) :=
  motionFrom idx1 idx2 next_cols next_rows prev_cols prev_rows mappingCount.toNat 0

/-- The `cv::arrowedLine` calls of one iteration (lines 493 and 501-514): one
per arrow, and the averaged one only when `validCount > 0`. -/
def arrowEvents (arrows : List Arrow) : List Event :=
  arrows.map (fun a => Event.arrowedLine a.x1 a.y1 a.x2 a.y2) ++
    (if 0 < arrows.length then [Event.averageArrow arrows.length] else [])

/-- The conversion `cv::cvtColor(m, m, cv::COLOR_RGBA2BGR)`: three channels. -/
def toBGR (E : Ext α) (m : Mat α) : Mat α :=
  { m with channels := 3, data := E.cvtColor ColorCode.RGBA2BGR m.data }

/-- The frame an exhausted or failed read leaves: no element. -/
def emptyMat (E : Ext α) : Mat α := ⟨0, 0, 1, E.noData⟩

/-- Lines 378-418 of `opticalNaive`: the host block, the Gaussian table, the
eighteen device allocations, the uploads and the two host index arrays. The
byte counts are the exact products; the source forms `width * height` and
`width * height * channels` in `int` (lines 359-360), so these are its values
as long as the two products fit an `int`. -/
def onSetup (E : Ext α) (prev_frame next_frame : Mat α) (s : St α) : St α :=
  let width := prev_frame.cols
  let height := prev_frame.rows
  let img_size_h := width * height * prev_frame.channels * 1
  let img_gray_size_h := width * height * 4
  let fw := E.FILTER_WIDTH
  let s := s.log
    [ Event.malloc HostBuf.img_h img_size_h,
      Event.computeGaussianKernel fw,
      Event.cudaMalloc DevBuf.img_d img_size_h,
      Event.cudaMalloc DevBuf.img_d_2 img_size_h,
      Event.cudaMalloc DevBuf.img_gray_d img_gray_size_h,
      Event.cudaMalloc DevBuf.img_gray_d_2 img_gray_size_h,
      Event.cudaMalloc DevBuf.img_blurred_d img_gray_size_h,
      Event.cudaMalloc DevBuf.img_blurred_d_2 img_gray_size_h,
      Event.cudaMalloc DevBuf.gaussian_kernel_d (fw * fw * 4),
      Event.cudaMalloc DevBuf.sobel_x_kernel_d (3 * 3 * 4),
      Event.cudaMalloc DevBuf.sobel_y_kernel_d (3 * 3 * 4),
      Event.cudaMalloc DevBuf.img_sobel_x_d img_gray_size_h,
      Event.cudaMalloc DevBuf.img_sobel_x_d_2 img_gray_size_h,
      Event.cudaMalloc DevBuf.img_sobel_y_d img_gray_size_h,
      Event.cudaMalloc DevBuf.img_sobel_y_d_2 img_gray_size_h,
      Event.cudaMalloc DevBuf.img_harris_d img_gray_size_h,
      Event.cudaMalloc DevBuf.harris_map1_d img_gray_size_h,
      Event.cudaMalloc DevBuf.harris_map2_d img_gray_size_h,
      Event.cudaMalloc DevBuf.idx1Mapping_d img_gray_size_h,
      Event.cudaMalloc DevBuf.idx2Mapping_d img_gray_size_h ]
  let s := (s.write DevBuf.img_d prev_frame.data).log
    [Event.memcpyFrame DevBuf.img_d HostMat.prev_frame img_size_h]
  let s := (s.write DevBuf.img_d_2 next_frame.data).log
    [Event.memcpyFrame DevBuf.img_d_2 HostMat.next_frame img_size_h]
  let s := (s.write DevBuf.gaussian_kernel_d (E.computeGaussianKernel fw)).log
    [Event.memcpyTable DevBuf.gaussian_kernel_d HostTable.gaussian_kernel (fw * fw * 4)]
  let s := (s.write DevBuf.sobel_x_kernel_d (E.hostTable sobel_x_kernel)).log
    [Event.memcpyTable DevBuf.sobel_x_kernel_d HostTable.sobel_x_kernel (3 * 3 * 4)]
  let s := (s.write DevBuf.sobel_y_kernel_d (E.hostTable sobel_y_kernel)).log
    [Event.memcpyTable DevBuf.sobel_y_kernel_d HostTable.sobel_y_kernel (3 * 3 * 4)]
  s.log [Event.malloc HostBuf.idx1Mapping_h (width * height * 4),
    Event.malloc HostBuf.idx2Mapping_h (width * height * 4)]

/-- One call `harrisMainKernelWrap((uchar4 *)frame.data, img, sobel_x, sobel_y,
width, height, K, ALPHA, gaussian_kernel_d, FILTER_WIDTH, false, map)` of lines
463-464: the new host pixels, the returned threshold and the new state. -/
def onHarris (E : Ext α) (width height : Nat) (host : HostMat)
    (img sobel_x sobel_y map : DevBuf) (data : α) (s : St α) : α × α × St α :=
  let r := E.harris data (s.mem img) (s.mem sobel_x) (s.mem sobel_y) width height
    (s.mem DevBuf.gaussian_kernel_d) E.FILTER_WIDTH false
  (r.host, r.threshold, ((s.write img r.img).write map r.map).log
    [Event.harrisMainKernelWrap host img sobel_x sobel_y width height
      DevBuf.gaussian_kernel_d E.FILTER_WIDTH false (some map)])

/-- Lines 438-464 of one iteration of `opticalNaive`: synchronisation, then the
stages on the current frame (buffers `*_2`) and, in the first iteration only,
on the previous frame too, in the order of the source. The result carries the
two host frames, the threshold returned by the second Harris call and the
state in which the correspondence stage is then called. -/
def onStages (E : Ext α) (first : Bool) (width height : Nat)
    (prev_frame next_frame : Mat α) (s : St α) : Mat α × Mat α × α × St α :=
  let s := s.log [Event.cudaDeviceSynchronize]
  let s := if first = true then
      rgbToGrayKernelWrap E DevBuf.img_d DevBuf.img_gray_d width height s else s
  let s := rgbToGrayKernelWrap E DevBuf.img_d_2 DevBuf.img_gray_d_2 width height s
  let s := if first = true then
      convolutionGPUWrap E DevBuf.img_blurred_d DevBuf.img_gray_d width height
        DevBuf.gaussian_kernel_d 3 s else s
  let s := convolutionGPUWrap E DevBuf.img_blurred_d_2 DevBuf.img_gray_d_2 width height
    DevBuf.gaussian_kernel_d 3 s
  let s := if first = true then
      convolutionGPUWrap E DevBuf.img_sobel_x_d DevBuf.img_blurred_d width height
        DevBuf.sobel_x_kernel_d 3 s else s
  let s := convolutionGPUWrap E DevBuf.img_sobel_x_d_2 DevBuf.img_blurred_d_2 width height
    DevBuf.sobel_x_kernel_d 3 s
  let s := if first = true then
      convolutionGPUWrap E DevBuf.img_sobel_y_d DevBuf.img_blurred_d width height
        DevBuf.sobel_y_kernel_d 3 s else s
  let s := convolutionGPUWrap E DevBuf.img_sobel_y_d_2 DevBuf.img_blurred_d_2 width height
    DevBuf.sobel_y_kernel_d 3 s
  let p := if first = true then
      let r := onHarris E width height HostMat.prev_frame DevBuf.img_d DevBuf.img_sobel_x_d
        DevBuf.img_sobel_y_d DevBuf.harris_map1_d prev_frame.data s
      ({ prev_frame with data := r.1 }, r.2.2)
    else (prev_frame, s)
  let r := onHarris E width height HostMat.next_frame DevBuf.img_d_2 DevBuf.img_sobel_x_d_2
    DevBuf.img_sobel_y_d_2 DevBuf.harris_map2_d next_frame.data p.2
  (p.1, { next_frame with data := r.1 }, r.2.1, r.2.2)

/-- Lines 471-474 of `opticalNaive`: the correspondence stage on the two
response maps and the copy of the two index arrays to the host. The result is
`mappingCount` with the new state, in which the two maps the stage was given
are recorded. -/
def onMatch (E : Ext α) (width height : Nat) (treshold : α) (s : St α) : Int × St α :=
  let map1 := s.mem DevBuf.harris_map1_d
  let map2 := s.mem DevBuf.harris_map2_d
  let m := E.mapCommon map1 map2 width height treshold
  let s := { s with mapCommonArgs := s.mapCommonArgs ++ [(map1, map2)] }
  (m.count, ((s.write DevBuf.idx1Mapping_d m.idx1).write DevBuf.idx2Mapping_d m.idx2).log
    [ Event.mapCommonKernelWrap DevBuf.harris_map1_d DevBuf.harris_map2_d width height 5
        DevBuf.idx1Mapping_d DevBuf.idx2Mapping_d,
      Event.memcpyD2H HostBuf.idx1Mapping_h DevBuf.idx1Mapping_d (width * height * 4),
      Event.memcpyD2H HostBuf.idx2Mapping_h DevBuf.idx2Mapping_d (width * height * 4) ])

/-- One call `cudaMemcpy(dst, src, bytes, cudaMemcpyDeviceToDevice)` between two
buffers of `bytes` bytes. -/
def memcpyD2D (dst src : DevBuf) (bytes : Nat) (s : St α) : St α :=
  (s.write dst (s.mem src)).log [Event.memcpyD2D dst src bytes]

/-- Lines 535-542 of `opticalNaive`: the current-frame buffers are copied over
the previous-frame buffers, device to device. -/
def onCarry (width height img_size_h : Nat) (s : St α) : St α :=
  let s := memcpyD2D DevBuf.img_d DevBuf.img_d_2 img_size_h s
  let s := memcpyD2D DevBuf.img_gray_d DevBuf.img_gray_d_2 (width * height * 4) s
  let s := memcpyD2D DevBuf.img_blurred_d DevBuf.img_blurred_d_2 (width * height * 4) s
  let s := memcpyD2D DevBuf.img_sobel_x_d DevBuf.img_sobel_x_d_2 (width * height * 4) s
  let s := memcpyD2D DevBuf.img_sobel_y_d DevBuf.img_sobel_y_d_2 (width * height * 4) s
  let s := memcpyD2D DevBuf.harris_map1_d DevBuf.harris_map2_d (width * height * 4) s
  let s := memcpyD2D DevBuf.idx1Mapping_d DevBuf.idx2Mapping_d (width * height * 4) s
  s.log [Event.cudaDeviceSynchronize]

/-- How an iteration of the `while (true)` of `opticalNaive` ends: it leaves the
loop, or it goes on to the next iteration with these two host frames. -/
inductive IterEnd (α : Type)
  | leave (s : St α)
  | next (prev_frame next_frame : Mat α) (s : St α)

/-- Lines 471-542 of one iteration of `opticalNaive`, from the correspondence
stage on: matching, motion vectors, display, the two exits (ESC, or a pair of
images), and the carry-over to the next iteration. `none`: the host loop reads
outside an index array, or the wait of line 527 never ends. -/
def onIterTail (E : Ext α) (video : Bool) (width height img_size_h : Nat)
    (prev_frame next_frame : Mat α) (treshold : α) (s : St α) : Option (IterEnd α) :=
  let m := onMatch E width height treshold s
  let s := m.2
  let idx1Mapping_h := (E.asInts (s.mem DevBuf.idx1Mapping_d)).take (width * height)
  let idx2Mapping_h := (E.asInts (s.mem DevBuf.idx2Mapping_d)).take (width * height)
  match motionVectors idx1Mapping_h idx2Mapping_h m.1 next_frame.cols next_frame.rows
      prev_frame.cols prev_frame.rows with
  | none => none
  | some arrows =>
    let s := s.log (arrowEvents arrows ++
      [Event.cvtColor HostMat.next_frame ColorCode.RGBA2BGR,
       Event.imshow Window.frame HostMat.next_frame])
    let next_frame := toBGR E next_frame
    let k := waitKey1 s
    if k.1 = 27 then some (IterEnd.leave k.2)
    else if video = false then
      match waitKey0 k.2 with
      | none => none
      | some s => some (IterEnd.leave s)
    else
      let s := k.2.log [Event.clone HostMat.prev_frame HostMat.next_frame]
      some (IterEnd.next next_frame next_frame (onCarry width height img_size_h s))

/-- Lines 438-542: one iteration of the loop after its frame has been fetched. -/
def onIter (E : Ext α) (first video : Bool) (width height img_size_h : Nat)
    (prev_frame next_frame : Mat α) (s : St α) : Option (IterEnd α) :=
  let r := onStages E first width height prev_frame next_frame s
  onIterTail E video width height img_size_h r.1 r.2.1 r.2.2.1 r.2.2.2

/-- Lines 424-436 of `opticalNaive`, in an iteration with `first` false and a
frame read that is not empty: both host frames are converted and the new frame
is uploaded to `img_d_2`. -/
def onFetch (E : Ext α) (img_size_h : Nat) (prev_frame read : Mat α) (s : St α) :
    Mat α × Mat α × St α :=
  let next_frame := toRGBA E read
  let prev_frame := toRGBA E prev_frame
  (prev_frame, next_frame,
    ((s.log [Event.cvtColor HostMat.next_frame ColorCode.BGR2RGBA,
        Event.cvtColor HostMat.prev_frame ColorCode.BGR2RGBA]).write
      DevBuf.img_d_2 next_frame.data).log
      [Event.memcpyFrame DevBuf.img_d_2 HostMat.next_frame img_size_h])

/-- The iterations of the loop of `opticalNaive` with `first` false, on the
frames the capture still holds: each reads a frame and leaves the loop when it
is empty. -/
def onRest (E : Ext α) (video : Bool) (width height img_size_h : Nat) :
    List (Mat α) → Mat α → St α → Option (St α)
  | [], _, s => some (s.log [Event.frameRead HostMat.next_frame])
  | read :: rest, prev_frame, s =>
    let s := s.log [Event.frameRead HostMat.next_frame]
    if read.empty = true then some s
    else
      let f := onFetch E img_size_h prev_frame read s
      match onIter E false video width height img_size_h f.1 f.2.1 f.2.2 with
      | none => none
      | some (IterEnd.leave s) => some s
      | some (IterEnd.next prev_frame _ s) =>
        onRest E video width height img_size_h rest prev_frame s

/-- Lines 421-543 of `opticalNaive`: the `while (true)`. The first iteration
(`first` true) reads no frame; the following ones do. -/
def onLoop (E : Ext α) (video : Bool) (width height img_size_h : Nat)
    (frames : List (Mat α)) (prev_frame next_frame : Mat α) (s : St α) : Option (St α) :=
  match onIter E true video width height img_size_h prev_frame next_frame s with
  | none => none
  | some (IterEnd.leave s) => some s
  | some (IterEnd.next prev_frame _ s) =>
    onRest E video width height img_size_h frames prev_frame s

/-- Lines 546-563 of `opticalNaive`: the deallocations. -/
def onRelease (s : St α) : St α :=
  s.log
    [ Event.cudaFree DevBuf.img_d,
      Event.cudaFree DevBuf.img_d_2,
      Event.cudaFree DevBuf.img_gray_d,
      Event.cudaFree DevBuf.img_gray_d_2,
      Event.cudaFree DevBuf.img_blurred_d,
      Event.cudaFree DevBuf.img_blurred_d_2,
      Event.cudaFree DevBuf.gaussian_kernel_d,
      Event.cudaFree DevBuf.sobel_x_kernel_d,
      Event.cudaFree DevBuf.sobel_y_kernel_d,
      Event.cudaFree DevBuf.img_sobel_x_d,
      Event.cudaFree DevBuf.img_sobel_x_d_2,
      Event.cudaFree DevBuf.img_sobel_y_d,
      Event.cudaFree DevBuf.img_sobel_y_d_2,
      Event.cudaFree DevBuf.img_harris_d,
      Event.free HostBuf.img_h,
      Event.cudaGetLastError ]

/-- Lines 350-568 of `opticalNaive`: what it does with its first two frames,
`frames` being what the capture still holds. The two frames reach the
conversions of lines 350 and 351 untested, and `cv::cvtColor` throws a
`cv::Exception` on an empty source: on an empty frame the call ends at that
conversion, before the allocations of lines 378-408. `none`: the loop never
ends or reads outside an array. -/
def opticalNaiveBody (E : Ext α) (video : Bool) (frames : List (Mat α))
    (prev_frame next_frame : Mat α) (s : St α) : Option (Ending α) :=
  let s := s.log [Event.cvtColor HostMat.prev_frame ColorCode.BGR2RGBA]
  if prev_frame.empty = true then some (Ending.thrown s)
  else
    let prev_frame := toRGBA E prev_frame
    let s := s.log [Event.cvtColor HostMat.next_frame ColorCode.BGR2RGBA]
    if next_frame.empty = true then some (Ending.thrown s)
    else
      let next_frame := toRGBA E next_frame
      let width := prev_frame.cols
      let height := prev_frame.rows
      let img_size_h := width * height * prev_frame.channels * 1
      let s := onSetup E prev_frame next_frame s
      match onLoop E video width height img_size_h frames prev_frame next_frame s with
      | none => none
      | some s => some (Ending.returned (onRelease s))

/-- The read `cap >> frame`: the next frame of the capture, an empty frame when
none is left. -/
def readFrame (E : Ext α) : List (Mat α) → Mat α × List (Mat α)
  | [] => (emptyMat E, [])
  | f :: fs => (f, fs)

/-- The function `opticalNaive(filename, filename2, video)`, with the way it
ends; `none` when it never ends or reads outside an array. -/
def opticalNaiveRun (E : Ext α) (filename filename2 : Str) (video : Bool) (s : St α) :
    Option (Ending α) :=
  let s := s.log [Event.videoCapture filename]
  if video = true then
    match E.videoFrames filename with
    | none => some (Ending.returned (s.log [Event.cerr ErrMsg.unableToLoadVideo]))
    | some frames =>
      let r1 := readFrame E frames
      let r2 := readFrame E r1.2
      opticalNaiveBody E video r2.2 r1.1 r2.1
        (s.log [Event.frameRead HostMat.prev_frame, Event.frameRead HostMat.next_frame])
  else
    opticalNaiveBody E video ((E.videoFrames filename).getD []) (E.imread filename)
      (E.imread filename2) (s.log [Event.imread filename, Event.imread filename2])

/-- The state at the return of `opticalNaive(filename, filename2, video)`;
`none` when it does not return: it never ends, reads outside an array, or an
exception leaves it. -/
def opticalNaive (E : Ext α) (filename filename2 : Str) (video : Bool) (s : St α) :
    Option (St α) :=
  returnOf (opticalNaiveRun E filename filename2 video s)

/-- The pipeline call of `main`, run from a state: the state at the return of
the pipeline. -/
def runCall (E : Ext α) (c : Call) (s : St α) : Option (St α) :=
  match c with
  | Call.handleImage mode filename low high =>
    handleImage E mode filename low high false (emptyMat E) s
  | Call.handleVideo mode filename low high =>
    (handleVideo E mode filename low high s).map Prod.snd
  | Call.opticalNaive filename filename2 video => opticalNaive E filename filename2 video s

/-! ## Auxiliary definitions for the statements -/

/-- Calls that acquire or give back a resource: device allocation and release,
pinning and un-pinning of host memory. -/
def isResource : Event → Bool
  | Event.cudaMalloc _ _ => true
  | Event.cudaFree _ => true
  | Event.cudaHostRegister _ _ => true
  | Event.cudaHostUnregister _ => true
  | _ => false

/-- A stretch of trace without resource calls. -/
def Quiet (L : List Event) : Prop := ∀ e ∈ L, isResource e = false

/-- The buffer a call of `otsuThreshold` is given. -/
def otsuOf : Event → Option DevBuf
  | Event.otsuThreshold src _ _ => some src
  | _ => none

/-- The buffers handed to `otsuThreshold` in a trace, in order. -/
def otsuCalls (es : List Event) : List DevBuf := es.filterMap otsuOf

/-- The thresholds the trackbar loop hands to the Canny stage, turn by turn:
the current trackbar values, then those the turn leaves, until the turn whose
key is ESC. -/
def guiThresholds : List Tick → Int → Int → List (Int × Int)
  | [], _, _ => []
  | t :: ts, l, h => (l, h) :: (if t.key = 27 then [] else guiThresholds ts t.thresh_l t.thresh_h)

/-- Buffers allocated by `handleImage` (lines 122-134), in order. -/
def hiAllocs : List DevBuf :=
  [DevBuf.img_d, DevBuf.img_gray_d, DevBuf.img_blurred_d, DevBuf.gaussian_kernel_d,
   DevBuf.sobel_x_kernel_d, DevBuf.sobel_x_separable_d, DevBuf.sobel_x_separable_2_d,
   DevBuf.sobel_y_kernel_d, DevBuf.sobel_y_separable_d, DevBuf.sobel_y_separable_2_d,
   DevBuf.img_sobel_x_d, DevBuf.img_sobel_y_d, DevBuf.img_harris_d]

/-- Buffers freed by `handleImage` (lines 248-259), in order. -/
def hiFrees : List DevBuf :=
  [DevBuf.img_d, DevBuf.img_gray_d, DevBuf.img_blurred_d, DevBuf.gaussian_kernel_d,
   DevBuf.sobel_x_kernel_d, DevBuf.sobel_y_kernel_d, DevBuf.sobel_x_separable_d,
   DevBuf.sobel_x_separable_2_d, DevBuf.img_sobel_x_d, DevBuf.img_sobel_y_d,
   DevBuf.img_harris_d]

/-- Contents of `img_blurred_d` when the `switch` of `handleImage` is reached:
the Gaussian blur of the gray image of the converted frame. -/
def blurredOf (E : Ext α) (img : Mat α) : α :=
  E.convolution (E.rgbToGray (E.cvtColor ColorCode.BGR2RGBA img.data) img.cols img.rows)
    img.cols img.rows (E.computeGaussianKernel E.FILTER_WIDTH) E.FILTER_WIDTH

/-- Contents of `img_gray_d` when the `switch` of `handleImage` is reached. -/
def grayOf (E : Ext α) (img : Mat α) : α :=
  E.rgbToGray (E.cvtColor ColorCode.BGR2RGBA img.data) img.cols img.rows

/-- The buffers handed to `otsuThreshold` by the `switch` of `handleImage`, by
mode. -/
def switchOtsu (mode : Mode) : List DevBuf :=
  match mode with
  | Mode.CANNY => [DevBuf.img_blurred_d]
  | Mode.OTSU_BIN => [DevBuf.img_gray_d]
  | _ => []

/-- The thresholds handed to the Canny stage by the `switch` of `handleImage`,
by mode, on a frame whose blurred image has Otsu threshold `otsu`. -/
def switchCanny (mode : Mode) (low_threshold high_threshold otsu : Int) (ui : List Tick) :
    List (Int × Int) :=
  match mode with
  | Mode.CANNY => [(Int.tdiv otsu 2, otsu)]
  | Mode.CANNY_MANUAL => [(low_threshold, high_threshold)]
  | Mode.CANNY_GUI => guiThresholds ui 50 100
  | _ => []

/-- The state an iteration of the loop of `opticalNaive` ends in. -/
def IterEnd.state : IterEnd α → St α
  | IterEnd.leave s => s
  | IterEnd.next _ _ s => s

/-- Buffers allocated by `opticalNaive` (lines 391-408), in order. -/
def onAllocs : List DevBuf :=
  [DevBuf.img_d, DevBuf.img_d_2, DevBuf.img_gray_d, DevBuf.img_gray_d_2,
   DevBuf.img_blurred_d, DevBuf.img_blurred_d_2, DevBuf.gaussian_kernel_d,
   DevBuf.sobel_x_kernel_d, DevBuf.sobel_y_kernel_d, DevBuf.img_sobel_x_d,
   DevBuf.img_sobel_x_d_2, DevBuf.img_sobel_y_d, DevBuf.img_sobel_y_d_2,
   DevBuf.img_harris_d, DevBuf.harris_map1_d, DevBuf.harris_map2_d,
   DevBuf.idx1Mapping_d, DevBuf.idx2Mapping_d]

/-- Buffers freed by `opticalNaive` (lines 546-559), in order. -/
def onFrees : List DevBuf :=
  [DevBuf.img_d, DevBuf.img_d_2, DevBuf.img_gray_d, DevBuf.img_gray_d_2,
   DevBuf.img_blurred_d, DevBuf.img_blurred_d_2, DevBuf.gaussian_kernel_d,
   DevBuf.sobel_x_kernel_d, DevBuf.sobel_y_kernel_d, DevBuf.img_sobel_x_d,
   DevBuf.img_sobel_x_d_2, DevBuf.img_sobel_y_d, DevBuf.img_sobel_y_d_2,
   DevBuf.img_harris_d]

/-- The keys the `cv::waitKey(1)` calls return one after the other when nothing
else consumes the turns: those of the turns to come, then `-1` for ever. -/
def keyStream (ui : List Tick) (i : Nat) : Int := (ui.map (fun t => t.key)).getD i (-1)

/-- The test `!img.empty()` that lets a frame into the pipeline. -/
def nonEmpty (m : Mat α) : Bool := !m.empty

/-- What one iteration of `handleVideo` adds to the trace: the read of the
frame, the calls of that frame's `handleImage`, then the `cv::waitKey(1)`. -/
def iterationTrace (pipeline : List Event) (key : Int) : List Event :=
  Event.frameRead HostMat.img :: pipeline ++ [Event.waitKey 1 key]

/-- The trace of successive iterations of `handleVideo`, given the calls of each
frame's `handleImage` and the key read after it. -/
def videoTrace : List (List Event) → List Int → List Event
  | B :: Bs, k :: ks => iterationTrace B k ++ videoTrace Bs ks
  | _, _ => []

/-- The program name `argv[0]` of the sample command lines. -/
def arg0 : Str := ['g', 'p', 'u']

/-- The file name `a.jpg`. -/
def a_jpg : Str := ['a', '.', 'j', 'p', 'g']

/-- The file name `b.jpg`. -/
def b_jpg : Str := ['b', '.', 'j', 'p', 'g']

/-- The file name `b.txt`. -/
def b_txt : Str := ['b', '.', 't', 'x', 't']

/-- The file name `v.mp4`. -/
def v_mp4 : Str := ['v', '.', 'm', 'p', '4']

/-- The file name `none.jpg`, of a file that does not exist. -/
def none_jpg : Str := ['n', 'o', 'n', 'e', '.', 'j', 'p', 'g']

/-- A sample world with buffer contents in `Nat`: `a.jpg` and `b.jpg` are 2x2
images, `v.mp4` is a video of three 2x2 frames, any other file is missing (so
`cv::imread` gives an empty frame and the capture does not open); the kernels
are simple arithmetic; `FILTER_WIDTH` is 5. -/
def demoExt : Ext Nat where
  FILTER_WIDTH := 5
  noData := 0
  imread := fun f =>
    if f = a_jpg then ⟨2, 2, 3, 10⟩ else if f = b_jpg then ⟨2, 2, 3, 20⟩ else ⟨0, 0, 1, 0⟩
  videoFrames := fun f =>
    if f = v_mp4 then some [⟨2, 2, 3, 30⟩, ⟨2, 2, 3, 40⟩, ⟨2, 2, 3, 50⟩] else none
  cvtColor := fun _ d => d + 1
  hostTable := fun t => t.length
  computeGaussianKernel := fun w => w
  rgbToGray := fun d _ _ => 2 * d
  convolution := fun src _ _ k kw => src + k + kw
  harris := fun host img sx sy _ _ g _ _ => ⟨host + 1, img, sx + sy + g, 1⟩
  otsuThreshold := fun d _ _ => ((d % 256 : Nat) : Int)
  canny := fun host img _ _ _ _ _ _ _ _ _ => ⟨host + 1, img⟩
  binarize := fun host _ _ _ _ => host + 1
  mapCommon := fun m1 m2 w h _ => ⟨m1, m2, ((min 2 (w * h) : Nat) : Int)⟩
  asInts := fun d => [(d % 4 : Nat), 3, 0, 1]

/-- A sample start: nothing traced yet, device memory not yet written, and
the user-interface turns given. -/
def demoStart (ui : List Tick) : St Nat := ⟨fun _ => 0, [], ui, []⟩

/-- The trace a run ends with, if it ends. -/
def traceOf (r : Option (St α)) : Option (List Event) := r.map (fun s => s.trace)

/-- The suffix `.mp4` of a video file name. -/
def dot_mp4 : Str := ['.', 'm', 'p', '4']

/-- A use of the Gaussian table: its computation on the host by
`computeGaussianKernel(width, FILTER_SIGMA)`, its upload to a device buffer, its
use as the kernel of the blur convolution, its use as the window of the
corner-response stage. -/
inductive KernelUse
  | computed (width : Nat)
  | uploaded (dst : DevBuf) (bytes : Nat)
  | blur (kernel : DevBuf) (kernel_width : Nat)
  | window (kernel : DevBuf) (kernel_width : Nat)
  deriving DecidableEq, Repr

/-- The use of the Gaussian table a call makes, if any. The blur convolution is
the `convolutionGPUWrap` whose destination is `img_blurred_d` or
`img_blurred_d_2`. -/
def kernelUseOf : Event → Option KernelUse
  | Event.computeGaussianKernel w => some (KernelUse.computed w)
  | Event.memcpyTable dst HostTable.gaussian_kernel bytes =>
    some (KernelUse.uploaded dst bytes)
  | Event.convolutionGPUWrap DevBuf.img_blurred_d _ _ _ kernel kw =>
    some (KernelUse.blur kernel kw)
  | Event.convolutionGPUWrap DevBuf.img_blurred_d_2 _ _ _ kernel kw =>
    some (KernelUse.blur kernel kw)
  | Event.harrisMainKernelWrap _ _ _ _ _ _ g kw _ _ => some (KernelUse.window g kw)
  | _ => none

/-- The uses of the Gaussian table in a trace, in order. -/
def kernelUses (es : List Event) : List KernelUse := es.filterMap kernelUseOf

/-- The uses of the Gaussian table by the `switch` of `handleImage`: the window
of the corner-response stage, in the two modes that run it. -/
def switchWindow (E : Ext α) (mode : Mode) : List KernelUse :=
  match mode with
  | Mode.HARRIS => [KernelUse.window DevBuf.gaussian_kernel_d E.FILTER_WIDTH]
  | Mode.SHI_TOMASI => [KernelUse.window DevBuf.gaussian_kernel_d E.FILTER_WIDTH]
  | _ => []

/-- The uses of the Gaussian table by the stages of one iteration of the loop
of `opticalNaive`: both frames in the first iteration, the current frame alone
afterwards; the blur is given the width 3, the corner-response stage
`FILTER_WIDTH`. -/
def stagesUses (E : Ext α) (first : Bool) : List KernelUse :=
  if first = true then
    [KernelUse.blur DevBuf.gaussian_kernel_d 3, KernelUse.blur DevBuf.gaussian_kernel_d 3,
     KernelUse.window DevBuf.gaussian_kernel_d E.FILTER_WIDTH,
     KernelUse.window DevBuf.gaussian_kernel_d E.FILTER_WIDTH]
  else
    [KernelUse.blur DevBuf.gaussian_kernel_d 3,
     KernelUse.window DevBuf.gaussian_kernel_d E.FILTER_WIDTH]

/-- The uses of the Gaussian table by `k` iterations after the first. -/
def laterUses (E : Ext α) : Nat → List KernelUse
  | 0 => []
  | k + 1 => stagesUses E false ++ laterUses E k

/-- Calls that allocate a host or device buffer, or run a stage of a pipeline. -/
def allocatesOrRuns : Event → Bool
  | Event.malloc .. => true
  | Event.computeGaussianKernel .. => true
  | Event.cudaMalloc .. => true
  | Event.rgbToGrayKernelWrap .. => true
  | Event.convolutionGPUWrap .. => true
  | Event.harrisMainKernelWrap .. => true
  | Event.otsuThreshold .. => true
  | Event.cannyMainKernelWrap .. => true
  | Event.binarizeImgWrapper .. => true
  | Event.mapCommonKernelWrap .. => true
  | _ => false

/-- The way a run ends and the trace it ends with: `true` for a return, `false`
for an exception. -/
def endingOf (r : Option (Ending α)) : Option (Bool × List Event) :=
  match r with
  | some (Ending.returned s) => some (true, s.trace)
  | some (Ending.thrown s) => some (false, s.trace)
  | none => none

/-- The iterations `its` of the loop of `handleVideo`, replayed from the state
`s`: for each of them the read of a frame, then `handleImage` on the frame of
the iteration, which must return, then the `cv::waitKey(1)` of line 304, which
must give the key of the iteration. The result is the state after the last of
them; `none` when they cannot be run so. -/
def replayIterations (E : Ext α) (mode : Mode) (filename : Str)
    (low_threshold high_threshold : Int) : List (VideoIter α) → St α → Option (St α)
  | [], s => some s
  | it :: its, s =>
    match handleImage E mode filename low_threshold high_threshold true it.frame
        (s.log [Event.frameRead HostMat.img]) with
    | none => none
    | some s1 =>
      if (waitKey1 s1).1 = it.key then
        replayIterations E mode filename low_threshold high_threshold its (waitKey1 s1).2
      else none

/-- The frames read from a capture in a trace, counted. -/
def frameReads (es : List Event) : Nat := es.count (Event.frameRead HostMat.img)

/-! ## Lemmas and theorems -/

theorem Quiet.nil : Quiet [] := by intro e he; cases he

theorem returnOf_eq_some (r : Option (Ending α)) (s : St α) :
    returnOf r = some s ↔ r = some (Ending.returned s) := by
  cases r with
  | none => simp [returnOf]
  | some e => cases e <;> simp [returnOf]

theorem Quiet.append {L M : List Event} (hL : Quiet L) (hM : Quiet M) : Quiet (L ++ M) := by
  intro e he
  rcases List.mem_append.1 he with h | h
  · exact hL e h
  · exact hM e h

theorem Quiet.allocated {L : List Event} (hL : Quiet L) : allocated L = [] := by
  unfold GPUProject.allocated
  rw [List.filterMap_eq_nil_iff]
  intro e he
  have := hL e he
  cases e <;> simp_all [isResource, allocOf]

theorem Quiet.freed {L : List Event} (hL : Quiet L) : freed L = [] := by
  unfold GPUProject.freed
  rw [List.filterMap_eq_nil_iff]
  intro e he
  have := hL e he
  cases e <;> simp_all [isResource, freeOf]

theorem Quiet.pinned {L : List Event} (hL : Quiet L) : pinned L = [] := by
  unfold GPUProject.pinned
  rw [List.filterMap_eq_nil_iff]
  intro e he
  have := hL e he
  cases e <;> simp_all [isResource, pinOf]

theorem Quiet.unpinned {L : List Event} (hL : Quiet L) : unpinned L = [] := by
  unfold GPUProject.unpinned
  rw [List.filterMap_eq_nil_iff]
  intro e he
  have := hL e he
  cases e <;> simp_all [isResource, unpinOf]

theorem allocated_append (L M : List Event) : allocated (L ++ M) = allocated L ++ allocated M := by
  simp [allocated]

theorem freed_append (L M : List Event) : freed (L ++ M) = freed L ++ freed M := by
  simp [freed]

theorem pinned_append (L M : List Event) : pinned (L ++ M) = pinned L ++ pinned M := by
  simp [pinned]

theorem unpinned_append (L M : List Event) : unpinned (L ++ M) = unpinned L ++ unpinned M := by
  simp [unpinned]

theorem cannyCalls_append (L M : List Event) :
    cannyCalls (L ++ M) = cannyCalls L ++ cannyCalls M := by
  simp [cannyCalls]

theorem keyReads_append (L M : List Event) : keyReads (L ++ M) = keyReads L ++ keyReads M := by
  simp [keyReads]

theorem otsuCalls_append (L M : List Event) :
    otsuCalls (L ++ M) = otsuCalls L ++ otsuCalls M := by
  simp [otsuCalls]

theorem cannyGuiLoop_trace (E : Ext α) (w h : Nat) (fv : Bool) :
    ∀ (ticks : List Tick) (l hi : Int) (data : α) (s : St α) (r : α × St α),
      cannyGuiLoop E w h fv ticks l hi data s = some r →
      ∃ L, r.2.trace = s.trace ++ L ∧ Quiet L ∧ cannyCalls L = guiThresholds ticks l hi ∧
        otsuCalls L = []
  | [], _, _, _, _, _, hr => by simp [cannyGuiLoop] at hr
  | t :: ts, l, hi, data, s, r, hr => by
    unfold cannyGuiLoop at hr
    simp only at hr
    split at hr
    · rename_i hk
      injection hr with hr
      subst hr
      refine ⟨[cannyEvent E w h l hi fv, Event.imshow Window.outputImage HostMat.img,
        Event.waitKey 1 t.key], ?_, ?_, ?_, ?_⟩
      · simp [cannyCall, St.log, St.write]
      · intro e he; simp at he; rcases he with rfl | rfl | rfl <;> rfl
      · simp [cannyCalls, cannyOf, guiThresholds, hk, cannyEvent]
      · simp [otsuCalls, otsuOf, cannyEvent]
    · rename_i hk
      obtain ⟨L, hL, hq, hc, ho⟩ := cannyGuiLoop_trace E w h fv ts _ _ _ _ r hr
      refine ⟨[cannyEvent E w h l hi fv, Event.imshow Window.outputImage HostMat.img,
        Event.waitKey 1 t.key] ++ L, ?_, ?_, ?_, ?_⟩
      · rw [hL]; simp [cannyCall, St.log, St.write]
      · refine Quiet.append ?_ hq
        intro e he; simp at he; rcases he with rfl | rfl | rfl <;> rfl
      · rw [cannyCalls_append, hc]
        simp [guiThresholds, hk, cannyCalls, cannyOf, cannyEvent]
      · rw [otsuCalls_append, ho]
        simp [otsuCalls, otsuOf, cannyEvent]

theorem hiPrepare_mem (E : Ext α) (img : Mat α) (s : St α) :
    (hiCommon E img.cols img.rows (hiSetup E (toRGBA E img) s)).mem DevBuf.img_blurred_d =
      blurredOf E img ∧
    (hiCommon E img.cols img.rows (hiSetup E (toRGBA E img) s)).mem DevBuf.img_gray_d =
      grayOf E img := by
  simp [hiCommon, hiSetup, rgbToGrayKernelWrap, convolutionGPUWrap, St.log, St.write,
    blurredOf, grayOf, toRGBA]

theorem hiPrepare_trace (E : Ext α) (img : Mat α) (s : St α) :
    ∃ L, (hiCommon E img.cols img.rows (hiSetup E (toRGBA E img) s)).trace = s.trace ++ L ∧
      allocated L = hiAllocs ∧ freed L = [] ∧ pinned L = [HostMat.img] ∧ unpinned L = [] ∧
      cannyCalls L = [] ∧ keyReads L = [] ∧ otsuCalls L = [] := by
  refine ⟨((hiCommon E img.cols img.rows (hiSetup E (toRGBA E img) s)).trace).drop
    s.trace.length, ?_, ?_⟩
  · simp [hiCommon, hiSetup, rgbToGrayKernelWrap, convolutionGPUWrap, St.log, St.write]
  · simp [hiCommon, hiSetup, rgbToGrayKernelWrap, convolutionGPUWrap, St.log, St.write,
      allocated, freed, pinned, unpinned, cannyCalls, keyReads, allocOf, freeOf, pinOf,
      unpinOf, cannyOf, keyOf, hiAllocs, otsuCalls, otsuOf]

theorem hiSwitch_trace (E : Ext α) (mode : Mode) (w h : Nat) (low high : Int) (fv : Bool)
    (data : α) (s : St α) (r : α × St α)
    (hr : hiSwitch E mode w h low high fv data s = some r) :
    ∃ L, r.2.trace = s.trace ++ L ∧ Quiet L ∧
      cannyCalls L =
        switchCanny mode low high (E.otsuThreshold (s.mem DevBuf.img_blurred_d) w h) s.ui ∧
      (mode ≠ Mode.CANNY_GUI → keyReads L = [] ∧ r.2.ui = s.ui) ∧
      otsuCalls L = switchOtsu mode := by
  cases mode
  case CANNY_GUI =>
    simp only [hiSwitch] at hr
    obtain ⟨L, hL, hq, hc, ho⟩ := cannyGuiLoop_trace E w h fv _ _ _ _ _ r hr
    refine ⟨[Event.namedWindow Window.outputImage, Event.createTrackbar true 255,
      Event.createTrackbar false 255] ++ L, ?_, ?_, ?_, ?_, ?_⟩
    · rw [hL]; simp [St.log]
    · refine Quiet.append ?_ hq
      intro e he; simp at he; rcases he with rfl | rfl | rfl <;> rfl
    · rw [cannyCalls_append, hc]; simp [cannyCalls, cannyOf, switchCanny, St.log]
    · intro hne; exact absurd rfl hne
    · rw [otsuCalls_append, ho]; rfl
  all_goals
    simp only [hiSwitch, Option.some.injEq] at hr
    refine ⟨r.2.trace.drop s.trace.length, ?_, ?_, ?_, ?_, ?_⟩ <;> subst hr
    · simp [harrisCall, cannyCall, St.log, St.write]
    · intro e he
      simp [harrisCall, cannyCall, St.log, St.write, cannyEvent] at he <;>
        (rcases he with rfl | rfl <;> rfl)
    · simp [harrisCall, cannyCall, St.log, St.write, cannyEvent, cannyCalls, cannyOf,
        switchCanny]
    · intro _
      simp [harrisCall, cannyCall, St.log, St.write, cannyEvent, keyReads, keyOf]
    · simp [harrisCall, cannyCall, St.log, St.write, cannyEvent, otsuCalls, otsuOf,
        switchOtsu]

theorem hiShow_trace (mode : Mode) (fv : Bool) (s s' : St α)
    (hs : hiShow mode fv s = some (Ending.returned s')) :
    ∃ L, s'.trace = s.trace ++ L ∧ allocated L = [] ∧ freed L = [] ∧ pinned L = [] ∧
      unpinned L = (if mode = Mode.CANNY_GUI then [] else [HostMat.img]) ∧
      cannyCalls L = [] ∧ (fv = true → keyReads L = [] ∧ s'.ui = s.ui) ∧ otsuCalls L = [] := by
  refine ⟨s'.trace.drop s.trace.length, ?_⟩
  unfold hiShow at hs
  by_cases hm : mode = Mode.CANNY_GUI
  · simp [hm] at hs
    subst hs
    simp [hm, allocated, freed, pinned, unpinned, cannyCalls, keyReads, otsuCalls]
  · simp only [hm, ne_eq, not_false_eq_true, if_true] at hs
    by_cases ho : mode = Mode.OTSU_BIN
    · simp [ho] at hs
    · simp only [ho, if_false] at hs
      cases fv
      · simp only [if_true] at hs
        cases hu : s.ui with
        | nil => simp [waitKey0, St.log, hu] at hs
        | cons t ts =>
          simp [waitKey0, St.log, hu] at hs
          subst hs
          simp [hm, allocated, freed, pinned, unpinned, cannyCalls, keyReads, allocOf, freeOf,
            pinOf, unpinOf, cannyOf, keyOf, otsuCalls, otsuOf]
      · simp [St.log] at hs
        subst hs
        simp [hm, allocated, freed, pinned, unpinned, cannyCalls, keyReads, allocOf, freeOf,
          pinOf, unpinOf, cannyOf, keyOf, otsuCalls, otsuOf]

theorem hiRelease_trace (s : St α) :
    ∃ L, (hiRelease s).trace = s.trace ++ L ∧ allocated L = [] ∧ freed L = hiFrees ∧
      pinned L = [] ∧ unpinned L = [] ∧ cannyCalls L = [] ∧ keyReads L = [] ∧
      (hiRelease s).ui = s.ui ∧ otsuCalls L = [] := by
  refine ⟨(hiRelease s).trace.drop s.trace.length, ?_⟩
  simp [hiRelease, St.log, allocated, freed, pinned, unpinned, cannyCalls, keyReads, allocOf,
    freeOf, pinOf, unpinOf, cannyOf, keyOf, hiFrees, otsuCalls, otsuOf]

theorem hiPrepare_ui (E : Ext α) (img : Mat α) (s : St α) :
    (hiCommon E img.cols img.rows (hiSetup E (toRGBA E img) s)).ui = s.ui := by
  simp [hiCommon, hiSetup, rgbToGrayKernelWrap, convolutionGPUWrap, St.log, St.write]

/-- What a run of the body of `handleImage` adds to the trace. -/
theorem handleImageBody_trace (E : Ext α) (mode : Mode) (low high : Int) (fv : Bool)
    (img : Mat α) (s s' : St α)
    (hs : handleImageBody E mode low high fv img s = some (Ending.returned s')) :
    ∃ L, s'.trace = s.trace ++ L ∧ allocated L = hiAllocs ∧ freed L = hiFrees ∧
      pinned L = [HostMat.img] ∧
      unpinned L = (if mode = Mode.CANNY_GUI then [] else [HostMat.img]) ∧
      cannyCalls L =
        switchCanny mode low high (E.otsuThreshold (blurredOf E img) img.cols img.rows) s.ui ∧
      (mode ≠ Mode.CANNY_GUI → fv = true → keyReads L = [] ∧ s'.ui = s.ui) ∧
      otsuCalls L = switchOtsu mode := by
  unfold handleImageBody at hs
  simp only at hs
  split at hs
  · exact absurd hs (by simp)
  · rename_i r hsw
    split at hs
    · exact absurd hs (by simp)
    · exact absurd hs (by simp)
    · rename_i s2 hsh
      simp only [Option.some.injEq, Ending.returned.injEq] at hs
      subst hs
      obtain ⟨L1, h1, a1, f1, p1, u1, c1, k1, o1⟩ :=
        hiPrepare_trace E img (s.log [Event.cvtColor HostMat.img ColorCode.BGR2RGBA])
      obtain ⟨L2, h2, q2, c2, k2, o2⟩ := hiSwitch_trace E mode _ _ low high fv _ _ r hsw
      obtain ⟨L3, h3, a3, f3, p3, u3, c3, k3, o3⟩ := hiShow_trace mode fv _ _ hsh
      obtain ⟨L4, h4, a4, f4, p4, u4, c4, k4, i4, o4⟩ := hiRelease_trace s2
      have hm := (hiPrepare_mem E img (s.log [Event.cvtColor HostMat.img ColorCode.BGR2RGBA])).1
      have hu := hiPrepare_ui E img (s.log [Event.cvtColor HostMat.img ColorCode.BGR2RGBA])
      simp only [toRGBA] at h1 h2 hm hu c2 k2 ⊢
      rw [hm, hu] at c2
      refine ⟨[Event.cvtColor HostMat.img ColorCode.BGR2RGBA] ++ L1 ++ L2 ++ L3 ++ L4,
        ?_, ?_, ?_, ?_, ?_, ?_, ?_, ?_⟩
      · rw [h4, h3, h2, h1]; simp [St.log]
      · have e0 : allocated [Event.cvtColor HostMat.img ColorCode.BGR2RGBA] = [] := rfl
        simp only [allocated_append, e0, a1, q2.allocated, a3, a4, List.nil_append,
          List.append_nil]
      · have e0 : freed [Event.cvtColor HostMat.img ColorCode.BGR2RGBA] = [] := rfl
        simp only [freed_append, e0, f1, q2.freed, f3, f4, List.nil_append, List.append_nil]
      · have e0 : pinned [Event.cvtColor HostMat.img ColorCode.BGR2RGBA] = [] := rfl
        simp only [pinned_append, e0, p1, q2.pinned, p3, p4, List.nil_append, List.append_nil]
      · have e0 : unpinned [Event.cvtColor HostMat.img ColorCode.BGR2RGBA] = [] := rfl
        simp only [unpinned_append, e0, u1, q2.unpinned, u3, u4, List.nil_append,
          List.append_nil]
      · have e0 : cannyCalls [Event.cvtColor HostMat.img ColorCode.BGR2RGBA] = [] := rfl
        simp only [cannyCalls_append, e0, c1, c2, c3, c4, List.nil_append, List.append_nil]
        rfl
      · intro hne hfv
        have k2' := k2 hne
        have k3' := k3 hfv
        have e0 : keyReads [Event.cvtColor HostMat.img ColorCode.BGR2RGBA] = [] := rfl
        refine ⟨?_, ?_⟩
        · simp only [keyReads_append, e0, k1, k2'.1, k3'.1, k4, List.nil_append,
            List.append_nil]
        · rw [i4, k3'.2, k2'.2, hu]; rfl
      · have e0 : otsuCalls [Event.cvtColor HostMat.img ColorCode.BGR2RGBA] = [] := rfl
        simp only [otsuCalls_append, e0, o1, o2, o3, o4, List.nil_append, List.append_nil]

theorem handleImage_trace (E : Ext α) (mode : Mode) (filename : Str) (low high : Int)
    (fv : Bool) (img_v : Mat α) (s s' : St α)
    (hreach : fv = true ∨ (E.imread filename).empty = false)
    (hs : handleImage E mode filename low high fv img_v s = some s') :
    ∃ L, s'.trace = s.trace ++ L ∧ allocated L = hiAllocs ∧ freed L = hiFrees ∧
      pinned L = [HostMat.img] ∧
      unpinned L = (if mode = Mode.CANNY_GUI then [] else [HostMat.img]) ∧
      cannyCalls L =
        switchCanny mode low high
          (E.otsuThreshold (blurredOf E (if fv = true then img_v else E.imread filename))
            (if fv = true then img_v else E.imread filename).cols
            (if fv = true then img_v else E.imread filename).rows) s.ui ∧
      (mode ≠ Mode.CANNY_GUI → fv = true → keyReads L = [] ∧ s'.ui = s.ui) ∧
      otsuCalls L = switchOtsu mode := by
  unfold handleImage at hs
  rw [returnOf_eq_some] at hs
  unfold handleImageRun at hs
  cases fv
  · have he : (E.imread filename).empty = false := by
      rcases hreach with h | h
      · exact absurd h (by simp)
      · exact h
    simp only [if_true, he, Bool.false_eq_true, if_false] at hs
    obtain ⟨L, hL, a, f, p, u, c, k, o⟩ :=
      handleImageBody_trace E mode low high false _ _ s' hs
    refine ⟨[Event.imread filename] ++ L, ?_, ?_, ?_, ?_, ?_, ?_, ?_, ?_⟩
    · rw [hL]; simp [St.log]
    · rw [allocated_append, a]; rfl
    · rw [freed_append, f]; rfl
    · rw [pinned_append, p]; rfl
    · rw [unpinned_append, u]; rfl
    · rw [cannyCalls_append, c]; rfl
    · intro _ h; exact absurd h (by simp)
    · rw [otsuCalls_append, o]; rfl
  · simp only [Bool.true_eq_false, if_false] at hs
    simpa using handleImageBody_trace E mode low high true img_v s s' hs

theorem log_trace (s : St α) (es : List Event) : (s.log es).trace = s.trace ++ es := rfl

theorem quiet_arrowEvents (arrows : List Arrow) : Quiet (arrowEvents arrows) := by
  intro e he
  unfold arrowEvents at he
  rcases List.mem_append.1 he with h | h
  · obtain ⟨a, _, rfl⟩ := List.mem_map.1 h
    rfl
  · split at h
    · simp at h; subst h; rfl
    · cases h

theorem onStages_trace (E : Ext α) (first : Bool) (w h : Nat) (p n : Mat α) (s : St α) :
    ∃ L, (onStages E first w h p n s).2.2.2.trace = s.trace ++ L ∧ Quiet L := by
  refine ⟨(onStages E first w h p n s).2.2.2.trace.drop s.trace.length, ?_, ?_⟩
  · cases first <;>
      simp [onStages, onHarris, rgbToGrayKernelWrap, convolutionGPUWrap, St.log, St.write]
  · cases first <;>
      simp [onStages, onHarris, rgbToGrayKernelWrap, convolutionGPUWrap, St.log, St.write,
        Quiet, isResource]

theorem onCarry_trace (w h sz : Nat) (s : St α) :
    ∃ L, (onCarry w h sz s).trace = s.trace ++ L ∧ Quiet L := by
  refine ⟨(onCarry w h sz s).trace.drop s.trace.length, ?_, ?_⟩
  · simp [onCarry, memcpyD2D, St.log, St.write]
  · simp [onCarry, memcpyD2D, St.log, St.write, Quiet, isResource]

theorem waitKey1_trace (s : St α) :
    ∃ L, (waitKey1 s).2.trace = s.trace ++ L ∧ Quiet L := by
  unfold waitKey1
  cases s.ui with
  | nil => exact ⟨[Event.waitKey 1 (-1)], rfl, by simp [Quiet, isResource]⟩
  | cons t ts => exact ⟨[Event.waitKey 1 t.key], rfl, by simp [Quiet, isResource]⟩

theorem waitKey0_trace (s s' : St α) (hs : waitKey0 s = some s') :
    ∃ L, s'.trace = s.trace ++ L ∧ Quiet L := by
  unfold waitKey0 at hs
  cases hu : s.ui with
  | nil => simp [hu] at hs
  | cons t ts =>
    simp [hu] at hs
    subst hs
    exact ⟨[Event.waitKey 0 t.key], rfl, by simp [Quiet, isResource]⟩

theorem onIterTail_trace (E : Ext α) (video : Bool) (w h sz : Nat) (p n : Mat α) (thr : α)
    (s : St α) (r : IterEnd α) (hr : onIterTail E video w h sz p n thr s = some r) :
    ∃ L, r.state.trace = s.trace ++ L ∧ Quiet L := by
  unfold onIterTail at hr
  simp only at hr
  split at hr
  · exact absurd hr (by simp)
  · rename_i arrows _
    have hm : ∃ L, (onMatch E w h thr s).2.trace = s.trace ++ L ∧ Quiet L :=
      ⟨_, by simp [onMatch, St.log, St.write]; rfl, by simp [Quiet, isResource]⟩
    obtain ⟨L1, h1, q1⟩ := hm
    have q2 : Quiet (arrowEvents arrows ++
        [Event.cvtColor HostMat.next_frame ColorCode.RGBA2BGR,
         Event.imshow Window.frame HostMat.next_frame]) :=
      Quiet.append (quiet_arrowEvents arrows) (by simp [Quiet, isResource])
    obtain ⟨L3, h3, q3⟩ := waitKey1_trace ((onMatch E w h thr s).2.log (arrowEvents arrows ++
        [Event.cvtColor HostMat.next_frame ColorCode.RGBA2BGR,
         Event.imshow Window.frame HostMat.next_frame]))
    split at hr
    · injection hr with hr
      subst hr
      refine ⟨L1 ++ (_ ++ L3), ?_, Quiet.append q1 (Quiet.append q2 q3)⟩
      simp only [IterEnd.state]; rw [h3, log_trace, h1]; simp only [List.append_assoc]
    · split at hr
      · split at hr
        · exact absurd hr (by simp)
        · rename_i s4 h4
          injection hr with hr
          subst hr
          obtain ⟨L4, h4', q4⟩ := waitKey0_trace _ _ h4
          refine ⟨L1 ++ (_ ++ (L3 ++ L4)), ?_,
            Quiet.append q1 (Quiet.append q2 (Quiet.append q3 q4))⟩
          simp only [IterEnd.state]; rw [h4', h3, log_trace, h1]
          simp only [List.append_assoc]
      · injection hr with hr
        subst hr
        obtain ⟨L5, h5, q5⟩ := onCarry_trace w h sz
          ((waitKey1 ((onMatch E w h thr s).2.log (arrowEvents arrows ++
            [Event.cvtColor HostMat.next_frame ColorCode.RGBA2BGR,
             Event.imshow Window.frame HostMat.next_frame]))).2.log
            [Event.clone HostMat.prev_frame HostMat.next_frame])
        refine ⟨L1 ++ (_ ++ (L3 ++ ([Event.clone HostMat.prev_frame HostMat.next_frame] ++ L5))),
          ?_, Quiet.append q1 (Quiet.append q2 (Quiet.append q3
            (Quiet.append (by simp [Quiet, isResource]) q5)))⟩
        simp only [IterEnd.state]; rw [h5, log_trace, h3, log_trace, h1]
        simp only [List.append_assoc]

theorem onIter_trace (E : Ext α) (first video : Bool) (w h sz : Nat) (p n : Mat α)
    (s : St α) (r : IterEnd α) (hr : onIter E first video w h sz p n s = some r) :
    ∃ L, r.state.trace = s.trace ++ L ∧ Quiet L := by
  unfold onIter at hr
  obtain ⟨L1, h1, q1⟩ := onStages_trace E first w h p n s
  obtain ⟨L2, h2, q2⟩ := onIterTail_trace E video w h sz _ _ _ _ r hr
  exact ⟨L1 ++ L2, by rw [h2, h1, List.append_assoc], Quiet.append q1 q2⟩

theorem onFetch_trace (E : Ext α) (sz : Nat) (p read : Mat α) (s : St α) :
    ∃ L, (onFetch E sz p read s).2.2.trace = s.trace ++ L ∧ Quiet L := by
  refine ⟨(onFetch E sz p read s).2.2.trace.drop s.trace.length, ?_, ?_⟩
  · simp [onFetch, St.log, St.write]
  · simp [onFetch, St.log, St.write, Quiet, isResource]

theorem onRest_trace (E : Ext α) (video : Bool) (w h sz : Nat) :
    ∀ (frames : List (Mat α)) (p : Mat α) (s s' : St α),
      onRest E video w h sz frames p s = some s' →
      ∃ L, s'.trace = s.trace ++ L ∧ Quiet L
  | [], p, s, s', hs => by
    simp only [onRest, Option.some.injEq] at hs
    subst hs
    exact ⟨[Event.frameRead HostMat.next_frame], rfl, by simp [Quiet, isResource]⟩
  | read :: rest, p, s, s', hs => by
    unfold onRest at hs
    simp only at hs
    have q0 : Quiet [Event.frameRead HostMat.next_frame] := by simp [Quiet, isResource]
    split at hs
    · injection hs with hs
      subst hs
      exact ⟨[Event.frameRead HostMat.next_frame], rfl, q0⟩
    · obtain ⟨L1, h1, q1⟩ := onFetch_trace E sz p read
        (s.log [Event.frameRead HostMat.next_frame])
      split at hs
      · exact absurd hs (by simp)
      · rename_i s2 hit
        injection hs with hs
        subst hs
        obtain ⟨L2, h2, q2⟩ := onIter_trace E false video w h sz _ _ _ _ hit
        refine ⟨[Event.frameRead HostMat.next_frame] ++ (L1 ++ L2), ?_,
          Quiet.append q0 (Quiet.append q1 q2)⟩
        simp only [IterEnd.state] at h2
        rw [h2, h1, log_trace]; simp only [List.append_assoc]
      · rename_i p2 n2 s2 hit
        obtain ⟨L2, h2, q2⟩ := onIter_trace E false video w h sz _ _ _ _ hit
        obtain ⟨L3, h3, q3⟩ := onRest_trace E video w h sz rest p2 s2 s' hs
        refine ⟨[Event.frameRead HostMat.next_frame] ++ (L1 ++ (L2 ++ L3)), ?_,
          Quiet.append q0 (Quiet.append q1 (Quiet.append q2 q3))⟩
        simp only [IterEnd.state] at h2
        rw [h3, h2, h1, log_trace]; simp only [List.append_assoc]

theorem onLoop_trace (E : Ext α) (video : Bool) (w h sz : Nat) (frames : List (Mat α))
    (p n : Mat α) (s s' : St α) (hs : onLoop E video w h sz frames p n s = some s') :
    ∃ L, s'.trace = s.trace ++ L ∧ Quiet L := by
  unfold onLoop at hs
  split at hs
  · exact absurd hs (by simp)
  · rename_i s2 hit
    injection hs with hs
    subst hs
    exact onIter_trace E true video w h sz _ _ _ _ hit
  · rename_i p2 n2 s2 hit
    obtain ⟨L2, h2, q2⟩ := onIter_trace E true video w h sz _ _ _ _ hit
    obtain ⟨L3, h3, q3⟩ := onRest_trace E video w h sz frames p2 s2 s' hs
    simp only [IterEnd.state] at h2
    exact ⟨L2 ++ L3, by rw [h3, h2, List.append_assoc], Quiet.append q2 q3⟩

theorem onSetup_trace (E : Ext α) (p n : Mat α) (s : St α) :
    ∃ L, (onSetup E p n s).trace = s.trace ++ L ∧ allocated L = onAllocs ∧ freed L = [] := by
  refine ⟨(onSetup E p n s).trace.drop s.trace.length, ?_, ?_⟩
  · simp [onSetup, St.log, St.write]
  · simp [onSetup, St.log, St.write, allocated, freed, allocOf, freeOf, onAllocs]

theorem onRelease_trace (s : St α) :
    ∃ L, (onRelease s).trace = s.trace ++ L ∧ allocated L = [] ∧ freed L = onFrees := by
  refine ⟨(onRelease s).trace.drop s.trace.length, ?_, ?_⟩
  · simp [onRelease, St.log]
  · simp [onRelease, St.log, allocated, freed, allocOf, freeOf, onFrees]

theorem opticalNaiveBody_trace (E : Ext α) (video : Bool) (frames : List (Mat α))
    (p n : Mat α) (s s' : St α)
    (hs : opticalNaiveBody E video frames p n s = some (Ending.returned s')) :
    ∃ L, s'.trace = s.trace ++ L ∧ allocated L = onAllocs ∧ freed L = onFrees := by
  unfold opticalNaiveBody at hs
  simp only at hs
  split at hs
  · exact absurd hs (by simp)
  · split at hs
    · exact absurd hs (by simp)
    · split at hs
      · exact absurd hs (by simp)
      · rename_i s2 hl
        simp only [Option.some.injEq, Ending.returned.injEq] at hs
        subst hs
        obtain ⟨L1, h1, a1, f1⟩ := onSetup_trace E (toRGBA E p) (toRGBA E n)
          ((s.log [Event.cvtColor HostMat.prev_frame ColorCode.BGR2RGBA]).log
            [Event.cvtColor HostMat.next_frame ColorCode.BGR2RGBA])
        obtain ⟨L2, h2, q2⟩ := onLoop_trace E video _ _ _ frames _ _ _ s2 hl
        obtain ⟨L3, h3, a3, f3⟩ := onRelease_trace s2
        refine ⟨[Event.cvtColor HostMat.prev_frame ColorCode.BGR2RGBA] ++
          ([Event.cvtColor HostMat.next_frame ColorCode.BGR2RGBA] ++ (L1 ++ (L2 ++ L3))),
          ?_, ?_, ?_⟩
        · rw [h3, h2, h1, log_trace, log_trace]; simp only [List.append_assoc]
        · have e0 : allocated [Event.cvtColor HostMat.prev_frame ColorCode.BGR2RGBA] = [] :=
            rfl
          have e1 : allocated [Event.cvtColor HostMat.next_frame ColorCode.BGR2RGBA] = [] :=
            rfl
          simp only [allocated_append, e0, e1, a1, q2.allocated, a3, List.nil_append,
            List.append_nil]
        · have e0 : freed [Event.cvtColor HostMat.prev_frame ColorCode.BGR2RGBA] = [] := rfl
          have e1 : freed [Event.cvtColor HostMat.next_frame ColorCode.BGR2RGBA] = [] := rfl
          simp only [freed_append, e0, e1, f1, q2.freed, f3, List.nil_append, List.append_nil]

theorem opticalNaive_trace (E : Ext α) (filename filename2 : Str) (video : Bool) (s s' : St α)
    (hreach : video = false ∨ E.videoFrames filename ≠ none)
    (hs : opticalNaive E filename filename2 video s = some s') :
    ∃ L, s'.trace = s.trace ++ L ∧ allocated L = onAllocs ∧ freed L = onFrees := by
  unfold opticalNaive at hs
  rw [returnOf_eq_some] at hs
  unfold opticalNaiveRun at hs
  cases video
  · simp only [Bool.false_eq_true, if_false] at hs
    obtain ⟨L, hL, a, f⟩ := opticalNaiveBody_trace E false _ _ _ _ s' hs
    refine ⟨[Event.videoCapture filename, Event.imread filename, Event.imread filename2] ++ L,
      ?_, ?_, ?_⟩
    · rw [hL]; simp [St.log]
    · rw [allocated_append, a]; rfl
    · rw [freed_append, f]; rfl
  · simp only [if_true] at hs
    cases hv : E.videoFrames filename with
    | none => rcases hreach with h | h
              · exact absurd h (by simp)
              · exact absurd hv h
    | some frames =>
      simp only [hv] at hs
      obtain ⟨L, hL, a, f⟩ := opticalNaiveBody_trace E true _ _ _ _ s' hs
      refine ⟨[Event.videoCapture filename, Event.frameRead HostMat.prev_frame,
        Event.frameRead HostMat.next_frame] ++ L, ?_, ?_, ?_⟩
      · rw [hL]; simp [St.log]
      · rw [allocated_append, a]; rfl
      · rw [freed_append, f]; rfl

theorem hiSwitch_returns (E : Ext α) (mode : Mode) (w h : Nat) (low high : Int) (fv : Bool)
    (data : α) (s : St α) (hm : mode ≠ Mode.CANNY_GUI) :
    ∃ r, hiSwitch E mode w h low high fv data s = some r := by
  cases mode
  case CANNY_GUI => exact absurd rfl hm
  all_goals exact ⟨_, rfl⟩

theorem hiShow_returns (mode : Mode) (fv : Bool) (s : St α) (ho : mode ≠ Mode.OTSU_BIN)
    (hret : fv = true ∨ s.ui ≠ []) :
    ∃ s', hiShow mode fv s = some (Ending.returned s') := by
  unfold hiShow
  split
  · simp only [ho, if_false]
    cases fv
    · cases hu : s.ui with
      | nil =>
        rcases hret with h | h
        · exact absurd h (by simp)
        · exact absurd hu h
      | cons t ts => simp [waitKey0, St.log, hu]
    · simp
  · exact ⟨_, rfl⟩

/-- In every mode but the trackbar one and `OTSU_BIN` the body of `handleImage`
returns, given a key press to end the wait of line 241 when the frame is not
from a video. -/
theorem handleImageBody_returns (E : Ext α) (mode : Mode) (low high : Int) (fv : Bool)
    (img : Mat α) (s : St α) (hm : mode ≠ Mode.CANNY_GUI) (ho : mode ≠ Mode.OTSU_BIN)
    (hret : fv = true ∨ s.ui ≠ []) :
    ∃ s', handleImageBody E mode low high fv img s = some (Ending.returned s') := by
  unfold handleImageBody
  simp only
  split
  · rename_i hsw
    obtain ⟨r, hr⟩ := hiSwitch_returns E mode (toRGBA E img).cols (toRGBA E img).rows low high
      fv (toRGBA E img).data (hiCommon E (toRGBA E img).cols (toRGBA E img).rows
        (hiSetup E (toRGBA E img) (s.log [Event.cvtColor HostMat.img ColorCode.BGR2RGBA]))) hm
    exact absurd (hr.symm.trans hsw) (by simp)
  · rename_i r hsw
    obtain ⟨L2, h2, q2, c2, k2, o2⟩ := hiSwitch_trace E mode _ _ low high fv _ _ r hsw
    have hu := hiPrepare_ui E img (s.log [Event.cvtColor HostMat.img ColorCode.BGR2RGBA])
    have hui : r.2.ui = s.ui := by rw [(k2 hm).2]; exact hu
    obtain ⟨s2, h2⟩ := hiShow_returns mode fv r.2 ho (by rw [hui]; exact hret)
    rw [h2]
    exact ⟨_, rfl⟩

theorem handleImageRun_returns (E : Ext α) (mode : Mode) (filename : Str) (low high : Int)
    (fv : Bool) (img_v : Mat α) (s : St α) (hm : mode ≠ Mode.CANNY_GUI)
    (ho : mode ≠ Mode.OTSU_BIN) (hret : fv = true ∨ s.ui ≠ []) :
    ∃ s', handleImageRun E mode filename low high fv img_v s = some (Ending.returned s') := by
  unfold handleImageRun
  cases fv
  · simp only [if_true]
    split
    · exact ⟨_, rfl⟩
    · exact handleImageBody_returns E mode low high false _ _ hm ho
        (by simpa [St.log] using hret)
  · simp only [Bool.true_eq_false, if_false]
    exact handleImageBody_returns E mode low high true _ _ hm ho (Or.inl rfl)

theorem waitKey1_key (s : St α) :
    (waitKey1 s).1 = keyStream s.ui 0 ∧
    (∀ i, keyStream (waitKey1 s).2.ui i = keyStream s.ui (i + 1)) ∧
    (waitKey1 s).2.trace = s.trace ++ [Event.waitKey 1 (waitKey1 s).1] := by
  unfold waitKey1
  cases hu : s.ui with
  | nil => simp [keyStream, St.log, hu]
  | cons t ts => simp [keyStream]

theorem handleImageBody_last (E : Ext α) (mode : Mode) (low high : Int) (fv : Bool)
    (img : Mat α) (s s' : St α)
    (hs : handleImageBody E mode low high fv img s = some (Ending.returned s')) :
    s'.trace.getLast? = some Event.cudaGetLastError := by
  unfold handleImageBody at hs
  simp only at hs
  split at hs
  · cases hs
  · split at hs
    · cases hs
    · cases hs
    · simp only [Option.some.injEq, Ending.returned.injEq] at hs
      subst hs
      simp [hiRelease, St.log]


/-- C1 (the code departs from the claim): every run of `handleImage` that
reaches the allocation phase and returns allocates the thirteen buffers of
`hiAllocs` and frees only the eleven of `hiFrees`, so `sobel_y_separable_d` and
`sobel_y_separable_2_d` are never released; every such run of `opticalNaive`
allocates the eighteen buffers of `onAllocs` and frees only the fourteen of
`onFrees`, so the two response maps and the two index arrays are never
released. -/
theorem device_buffers_not_all_freed :
    (∀ (E : Ext α) (mode : Mode) (filename : Str) (low high : Int) (from_video : Bool)
        (img_v : Mat α) (s s' : St α),
        (from_video = true ∨ (E.imread filename).empty = false) →
        handleImage E mode filename low high from_video img_v s = some s' →
        ∃ L, s'.trace = s.trace ++ L ∧ allocated L = hiAllocs ∧ freed L = hiFrees) ∧
    (∀ (E : Ext α) (filename filename2 : Str) (video : Bool) (s s' : St α),
        (video = false ∨ E.videoFrames filename ≠ none) →
        opticalNaive E filename filename2 video s = some s' →
        ∃ L, s'.trace = s.trace ++ L ∧ allocated L = onAllocs ∧ freed L = onFrees) ∧
    hiAllocs.filter (fun p => !hiFrees.contains p) =
      [DevBuf.sobel_y_separable_d, DevBuf.sobel_y_separable_2_d] ∧
    onAllocs.filter (fun p => !onFrees.contains p) =
      [DevBuf.harris_map1_d, DevBuf.harris_map2_d, DevBuf.idx1Mapping_d,
        DevBuf.idx2Mapping_d] := by
  refine ⟨?_, ?_, by decide, by decide⟩
  · intro E mode filename low high fv img_v s s' hreach hs
    obtain ⟨L, hL, a, f, _⟩ := handleImage_trace E mode filename low high fv img_v s s' hreach hs
    exact ⟨L, hL, a, f⟩
  · intro E filename filename2 video s s' hreach hs
    exact opticalNaive_trace E filename filename2 video s s' hreach hs

/-- C1, evaluated: `handleImage(HARRIS, "a.jpg", 0, 0)` on the sample world, with
one key pressed, returns having allocated `hiAllocs` and freed `hiFrees`. -/
theorem device_buffers_not_all_freed_witness :
    ∃ s', handleImage demoExt Mode.HARRIS a_jpg 0 0 false (emptyMat demoExt)
        (demoStart [⟨32, 50, 100⟩]) = some s' ∧
      ∃ L, s'.trace = (demoStart [⟨32, 50, 100⟩]).trace ++ L ∧ allocated L = hiAllocs ∧
        freed L = hiFrees :=
  ⟨_, rfl, device_buffers_not_all_freed.1 demoExt Mode.HARRIS a_jpg 0 0 false
    (emptyMat demoExt) (demoStart [⟨32, 50, 100⟩]) _ (Or.inr (by decide)) rfl⟩

/-- C2 (as stated, it fails): the command line `-C -f=a.jpg -l=200 -h=100` is
accepted by `main` and makes `handleImage` call the Canny stage with low 200
and high 100; the command line `-C -f=a.jpg -g` is accepted too, and once the
user has moved the trackbars to 200 (low) and 100 (high) the Canny stage is
called with these. In both runs a call has low above high. -/
theorem canny_low_le_high_counterexample :
    main [arg0, str_C, str_f ++ a_jpg, str_l ++ ['2', '0', '0'], str_h ++ ['1', '0', '0']] =
      ⟨0, some (Call.handleImage Mode.CANNY_MANUAL a_jpg 200 100)⟩ ∧
    (traceOf (runCall demoExt (Call.handleImage Mode.CANNY_MANUAL a_jpg 200 100)
      (demoStart [⟨32, 50, 100⟩]))).map cannyCalls = some [(200, 100)] ∧
    main [arg0, str_C, str_f ++ a_jpg, str_g] =
      ⟨0, some (Call.handleImage Mode.CANNY_GUI a_jpg 0 0)⟩ ∧
    (traceOf (runCall demoExt (Call.handleImage Mode.CANNY_GUI a_jpg 0 0)
      (demoStart [⟨-1, 200, 100⟩, ⟨27, 200, 100⟩]))).map cannyCalls =
        some [(50, 100), (200, 100)] ∧
    ¬ ((200 : Int) ≤ 100) :=
  ⟨by decide, rfl, by decide, rfl, by decide⟩

theorem parseMode_ne_manual (a : Str) : parseMode a ≠ some Mode.CANNY_MANUAL := by
  unfold parseMode
  split_ifs <;> simp

theorem parseCanny_manual (argv : List Str) (p q : Parsed)
    (h : parseCanny argv p = some q) (hq : q.mode = Mode.CANNY_MANUAL) :
    stoi ((argv.getD 3 []).drop 3) = some q.low_threshold ∧
    stoi ((argv.getD 4 []).drop 3) = some q.high_threshold := by
  unfold parseCanny at h
  generalize argv.getD 3 [] = a3 at h ⊢
  generalize argv.getD 4 [] = a4 at h ⊢
  simp only [substrFrom] at h
  by_cases hg : a3 = str_g
  · simp only [hg, if_true] at h
    split at h
    · cases h
    · injection h with h
      subst h
      exact absurd hq (by simp)
  · simp only [hg, if_false] at h
    split at h
    · cases h
    · split at h
      · split at h
        · cases h
        · split at h
          · cases h
          · rename_i low hlow
            split at h
            · split at h
              · cases h
              · split at h
                · cases h
                · rename_i high hhigh
                  injection h with h
                  subst h
                  exact ⟨hlow, hhigh⟩
            · cases h
      · cases h

theorem parseOptical_mode (argv : List Str) (p q : Parsed) (h : parseOptical argv p = some q) :
    q.mode = p.mode := by
  unfold parseOptical at h
  simp only at h
  split at h
  · split at h
    · cases h
    · split at h
      · cases h
      · injection h with h
        subst h
        rfl
  · cases h

theorem parseArgs_manual (argv : List Str) (q : Parsed) (h : parseArgs argv = some q)
    (hq : q.mode = Mode.CANNY_MANUAL) :
    stoi ((argv.getD 3 []).drop 3) = some q.low_threshold ∧
    stoi ((argv.getD 4 []).drop 3) = some q.high_threshold := by
  unfold parseArgs at h
  split at h
  · cases h
  · split at h
    · cases h
    · rename_i mode hm
      have hne : mode ≠ Mode.CANNY_MANUAL := fun e => parseMode_ne_manual _ (e ▸ hm)
      simp only at h
      split at h
      · split at h
        · cases h
        · split at h
          · cases h
          · split at h
            · split at h
              · exact parseCanny_manual argv _ q h hq
              · split at h
                · have := parseOptical_mode argv _ q h
                  exact absurd (this.symm.trans hq) hne
                · injection h with h
                  subst h
                  exact absurd hq hne
            · injection h with h
              subst h
              exact absurd hq hne
      · cases h

/-- C2, as amended: for every command line `main` accepts in manual mode, the
thresholds `main` hands on are the integers read from `-l=` and `-h=`, in
whatever order they stand; and of every run of `handleImage` that returns, in
automatic mode every call to the Canny stage has low at most high when the
Otsu threshold is in 0..255, in manual mode the one call has exactly the low
and high it was given, and in trackbar mode the calls have low 50 and high 100
first and then the trackbar positions each turn left. -/
theorem canny_thresholds_by_mode :
    (∀ (argv : List Str) (mode : Mode) (filename : Str) (low high : Int),
        ((main argv).call = some (Call.handleImage mode filename low high) ∨
          (main argv).call = some (Call.handleVideo mode filename low high)) →
        mode = Mode.CANNY_MANUAL →
        stoi ((argv.getD 3 []).drop 3) = some low ∧
          stoi ((argv.getD 4 []).drop 3) = some high) ∧
    (∀ (E : Ext α) (mode : Mode) (filename : Str) (low high : Int) (from_video : Bool)
        (img_v : Mat α) (s s' : St α),
        (from_video = true ∨ (E.imread filename).empty = false) →
        handleImage E mode filename low high from_video img_v s = some s' →
        ∃ L, s'.trace = s.trace ++ L ∧
          (mode = Mode.CANNY →
            0 ≤ E.otsuThreshold
                (blurredOf E (if from_video = true then img_v else E.imread filename))
                (if from_video = true then img_v else E.imread filename).cols
                (if from_video = true then img_v else E.imread filename).rows →
            E.otsuThreshold
                (blurredOf E (if from_video = true then img_v else E.imread filename))
                (if from_video = true then img_v else E.imread filename).cols
                (if from_video = true then img_v else E.imread filename).rows ≤ 255 →
            ∀ c ∈ cannyCalls L, c.1 ≤ c.2) ∧
          (mode = Mode.CANNY_MANUAL → cannyCalls L = [(low, high)]) ∧
          (mode = Mode.CANNY_GUI → cannyCalls L = guiThresholds s.ui 50 100)) := by
  constructor
  · intro argv mode filename low high hcall hmode
    unfold main at hcall
    cases hp : parseArgs argv with
    | none => simp [hp, usageError] at hcall
    | some p =>
      simp only [hp, dispatch] at hcall
      have hq : p.mode = mode ∧ p.low_threshold = low ∧ p.high_threshold = high := by
        split_ifs at hcall <;> simp at hcall <;> tauto
      have := parseArgs_manual argv p hp (hq.1.trans hmode)
      rw [hq.2.1, hq.2.2] at this
      exact this
  · intro E mode filename low high fv img_v s s' hreach hs
    obtain ⟨L, hL, _, _, _, _, c, _⟩ :=
      handleImage_trace E mode filename low high fv img_v s s' hreach hs
    refine ⟨L, hL, ?_, ?_, ?_⟩
    · intro hm h0 _ x hx
      subst hm
      rw [c] at hx
      simp only [switchCanny, List.mem_singleton] at hx
      subst hx
      simp only
      rw [Int.tdiv_eq_ediv h0 (by decide)]
      exact Int.ediv_le_self _ h0
    · intro hm; subst hm; rw [c]; rfl
    · intro hm; subst hm; rw [c]; rfl

/-- C2 as amended, evaluated on the command line `-C -f=a.jpg -l=200 -h=100`. -/
theorem canny_thresholds_by_mode_witness :
    stoi ((([arg0, str_C, str_f ++ a_jpg, str_l ++ ['2', '0', '0'],
        str_h ++ ['1', '0', '0']] : List Str).getD 3 []).drop 3) = some 200 ∧
    stoi ((([arg0, str_C, str_f ++ a_jpg, str_l ++ ['2', '0', '0'],
        str_h ++ ['1', '0', '0']] : List Str).getD 4 []).drop 3) = some 100 :=
  (canny_thresholds_by_mode (α := Nat)).1
    [arg0, str_C, str_f ++ a_jpg, str_l ++ ['2', '0', '0'], str_h ++ ['1', '0', '0']]
    Mode.CANNY_MANUAL a_jpg 200 100 (Or.inl (by decide)) rfl

/-- C5 (the code departs from the claim): every run of `handleImage` that
reaches the allocation phase and returns pins the frame once
(`cudaHostRegister`, line 138) and un-pins it once in every mode except
`CANNY_GUI`, where it returns without any `cudaHostUnregister`: line 243 is
inside the `if (mode != CANNY_GUI)` of line 220. -/
theorem frame_unpinned_except_gui (E : Ext α) (mode : Mode) (filename : Str)
    (low high : Int) (from_video : Bool) (img_v : Mat α) (s s' : St α)
    (hreach : from_video = true ∨ (E.imread filename).empty = false)
    (hs : handleImage E mode filename low high from_video img_v s = some s') :
    ∃ L, s'.trace = s.trace ++ L ∧ pinned L = [HostMat.img] ∧
      unpinned L = (if mode = Mode.CANNY_GUI then [] else [HostMat.img]) := by
  obtain ⟨L, hL, _, _, p, u, _⟩ :=
    handleImage_trace E mode filename low high from_video img_v s s' hreach hs
  exact ⟨L, hL, p, u⟩

/-- C5, evaluated: `handleImage(CANNY_GUI, "a.jpg", 0, 0)` in the sample world,
ESC pressed at the first turn, returns with the frame pinned and never
un-pinned. -/
theorem frame_unpinned_except_gui_witness :
    ∃ s', handleImage demoExt Mode.CANNY_GUI a_jpg 0 0 false (emptyMat demoExt)
        (demoStart [⟨27, 50, 100⟩]) = some s' ∧
      ∃ L, s'.trace = (demoStart [⟨27, 50, 100⟩]).trace ++ L ∧ pinned L = [HostMat.img] ∧
        unpinned L = [] :=
  ⟨_, rfl, frame_unpinned_except_gui demoExt Mode.CANNY_GUI a_jpg 0 0 false (emptyMat demoExt)
    (demoStart [⟨27, 50, 100⟩]) _ (Or.inr (by decide)) rfl⟩

/-- C8 (the code departs from the claim): at row 0, column 0 the dense Sobel
tables hold -1 while the products of the separable tables are 1; at every row
and column the dense coefficient is the negated product of the separable ones,
so the separable tables are a separable form of the operators of opposite
sign (those of the commented-out lines 14 and 20), not of `sobel_x_kernel` and
`sobel_y_kernel`. -/
theorem sobel_dense_is_negated_separable_product :
    (tableAt sobel_x_kernel (3 * 0 + 0) = some (-1) ∧
      outerAt sobel_x_separable sobel_x_separable_2 0 0 = some 1) ∧
    (tableAt sobel_y_kernel (3 * 0 + 0) = some (-1) ∧
      outerAt sobel_y_separable sobel_y_separable_2 0 0 = some 1) ∧
    ∀ r c : Fin 3,
      tableAt sobel_x_kernel (3 * r + c) =
        (outerAt sobel_x_separable sobel_x_separable_2 r c).map (fun v => -v) ∧
      tableAt sobel_y_kernel (3 * r + c) =
        (outerAt sobel_y_separable sobel_y_separable_2 r c).map (fun v => -v) := by
  decide

theorem substr_eq_iff (a p : Str) (n : Nat) (hn : p.length = n) :
    substr a 0 n = p ↔ p <+: a := by
  subst hn
  rw [List.prefix_iff_eq_take]
  simp [substr, eq_comm]

/-- For every argument vector `argv` (`argc` is its length), `main` returns -1
and calls no pipeline when `argc < 3`, or `argv[1]` is none of `-H`, `-C`, `-O`,
`-S`, `-OP`, or `argv[2]` does not begin with `-f=`, or the file name after `-f=`
is empty, or the extension the source computes for it is none of `jpg`, `png`,
`mp4`. -/
theorem main_rejects_bad_arguments (argv : List Str)
    (h : argv.length < 3 ∨
      (argv.getD 1 [] ≠ str_H ∧ argv.getD 1 [] ≠ str_C ∧ argv.getD 1 [] ≠ str_O ∧
        argv.getD 1 [] ≠ str_S ∧ argv.getD 1 [] ≠ str_OP) ∨
      ¬ (str_f <+: argv.getD 2 []) ∨
      (argv.getD 2 []).drop 3 = [] ∨
      (extOf ((argv.getD 2 []).drop 3) ≠ str_jpg ∧
        extOf ((argv.getD 2 []).drop 3) ≠ str_png ∧
        extOf ((argv.getD 2 []).drop 3) ≠ str_mp4)) :
    main argv = ⟨-1, none⟩ := by
  have hp : parseArgs argv = none := by
    unfold parseArgs
    generalize argv.getD 1 [] = a1 at h ⊢
    generalize argv.getD 2 [] = a2 at h ⊢
    by_cases h0 : argv.length < 3
    · simp [h0]
    · simp only [h0, if_false]
      rcases h with h | h | h | h | h
      · exact absurd h h0
      · have : parseMode a1 = none := by
          simp [parseMode, h.1, h.2.1, h.2.2.1, h.2.2.2.1, h.2.2.2.2]
        simp [this]
      · have : substr a2 0 3 ≠ str_f := by
          rw [Ne, substr_eq_iff _ _ 3 (by decide)]; exact h
        cases parseMode a1 <;> simp [this]
      · cases parseMode a1 <;> simp [substrFrom, h]
      · cases parseMode a1 <;> simp [substrFrom, h.1, h.2.1, h.2.2]
  simp [main, hp, usageError]

/-- C10 (the code departs from the claim): with `-OP -f=a.jpg` and a fourth
argument `-f2=<name>`, whatever `<name>` is, empty or with any extension, `main`
returns 0 and calls `opticalNaive("a.jpg", <name>, false)`: lines 716 and 722
test `filename` again, not `filename2`. So it does for the empty name and for
`b.txt`. -/
theorem main_accepts_any_second_filename :
    (∀ name : Str, main [arg0, str_OP, str_f ++ a_jpg, str_f2 ++ name] =
      ⟨0, some (Call.opticalNaive a_jpg name false)⟩) ∧
    main [arg0, str_OP, str_f ++ a_jpg, str_f2] =
      ⟨0, some (Call.opticalNaive a_jpg [] false)⟩ ∧
    main [arg0, str_OP, str_f ++ a_jpg, str_f2 ++ b_txt] =
      ⟨0, some (Call.opticalNaive a_jpg b_txt false)⟩ ∧
    extOf b_txt = ['t', 'x', 't'] := by
  refine ⟨?_, by decide, by decide, by decide⟩
  intro name
  have h1 : extOf a_jpg = str_jpg := by decide
  have h2 : parseMode str_OP = some Mode.OPTICAL := by decide
  have h3 : str_jpg ≠ str_mp4 := by decide
  have h4 : a_jpg ≠ [] := by decide
  simp [main, parseArgs, parseOptical, dispatch, substr, substrFrom, h2, str_f, str_f2, h1,
    h3, h4]

theorem parseMode_ne_gui (a : Str) : parseMode a ≠ some Mode.CANNY_GUI := by
  unfold parseMode
  split_ifs <;> simp

theorem parseCanny_gui (argv : List Str) (p q : Parsed)
    (h : parseCanny argv p = some q) (hq : q.mode = Mode.CANNY_GUI) :
    q.is_video = false := by
  unfold parseCanny at h
  generalize argv.getD 3 [] = a3 at h
  generalize argv.getD 4 [] = a4 at h
  simp only [substrFrom] at h
  by_cases hg : a3 = str_g
  · simp only [hg, if_true] at h
    split at h
    · cases h
    · rename_i hv
      injection h with h
      subst h
      simpa using hv
  · simp only [hg, if_false] at h
    split at h
    · cases h
    · split at h
      · split at h
        · cases h
        · split at h
          · cases h
          · split at h
            · split at h
              · cases h
              · split at h
                · cases h
                · injection h with h
                  subst h
                  exact absurd hq (by simp)
            · cases h
      · cases h

theorem parseArgs_gui (argv : List Str) (q : Parsed) (h : parseArgs argv = some q)
    (hq : q.mode = Mode.CANNY_GUI) : q.is_video = false := by
  unfold parseArgs at h
  split at h
  · cases h
  · split at h
    · cases h
    · rename_i mode hm
      have hne : mode ≠ Mode.CANNY_GUI := fun e => parseMode_ne_gui _ (e ▸ hm)
      simp only at h
      split at h
      · split at h
        · cases h
        · split at h
          · cases h
          · split at h
            · split at h
              · exact parseCanny_gui argv _ q h hq
              · split at h
                · have := parseOptical_mode argv _ q h
                  exact absurd (this.symm.trans hq) hne
                · injection h with h
                  subst h
                  exact absurd hq hne
            · injection h with h
              subst h
              exact absurd hq hne
      · cases h

theorem lastIndexFrom_append (c : Char) :
    ∀ (xs ys : Str) (i : Nat) (best : Option Nat),
      lastIndexFrom c (xs ++ ys) i best =
        lastIndexFrom c ys (i + xs.length) (lastIndexFrom c xs i best)
  | [], ys, i, best => by simp [lastIndexFrom]
  | x :: xs, ys, i, best => by
    have ih := lastIndexFrom_append c xs ys (i + 1) (if x = c then some i else best)
    have hl : i + (x :: xs).length = i + 1 + xs.length := by
      simp only [List.length_cons]; omega
    rw [List.cons_append, hl]
    simp only [lastIndexFrom]
    exact ih

/-- The extension the source computes for a name ending in `.mp4` is `mp4`,
the name being short enough for `size_t`. -/
theorem extOf_dot_mp4 (file : Str) (hlen : file.length + 4 < 2 ^ 64) :
    extOf (file ++ dot_mp4) = str_mp4 := by
  have hfind : find_last_of (file ++ dot_mp4) '.' = file.length := by
    unfold find_last_of
    rw [lastIndexFrom_append]
    simp [dot_mp4, lastIndexFrom]
  unfold extOf
  rw [hfind, Nat.mod_eq_of_lt (by omega)]
  simp [substrFrom, dot_mp4, str_mp4]

/-- C11: for every argument vector, when `main` calls `handleVideo` the mode is
not `CANNY_GUI`; and every command line `-C -f=<file>.mp4 -g`, whatever follows
`-g`, makes `main` return -1 without calling any pipeline (the file name being
short enough for `size_t`). -/
theorem main_never_video_in_gui_mode :
    (∀ (argv : List Str) (mode : Mode) (filename : Str) (low high : Int),
        (main argv).call = some (Call.handleVideo mode filename low high) →
        mode ≠ Mode.CANNY_GUI) ∧
    (∀ (prog file : Str) (more : List Str), file.length + 4 < 2 ^ 64 →
        main (prog :: str_C :: (str_f ++ (file ++ dot_mp4)) :: str_g :: more) =
          ⟨-1, none⟩) := by
  constructor
  · intro argv mode filename low high hcall hmode
    unfold main at hcall
    cases hp : parseArgs argv with
    | none => simp [hp, usageError] at hcall
    | some p =>
      simp only [hp, dispatch] at hcall
      have hq : p.mode = mode ∧ p.is_video = true := by
        split_ifs at hcall <;> simp at hcall
        tauto
      have := parseArgs_gui argv p hp (hq.1.trans hmode)
      rw [hq.2] at this
      exact absurd this (by simp)
  · intro prog file more hlen
    have h1 : extOf (file ++ dot_mp4) = str_mp4 := extOf_dot_mp4 file hlen
    have h2 : parseMode str_C = some Mode.CANNY := by decide
    have h3 : str_mp4 ≠ str_jpg := by decide
    have h4 : str_mp4 ≠ str_png := by decide
    have h5 : file ++ dot_mp4 ≠ [] := by simp [dot_mp4]
    simp [main, parseArgs, parseCanny, usageError, substr, substrFrom, h2, str_f, h1, h3, h4,
      h5]

/-- C11, evaluated on the command line `-C -f=v.mp4 -g`. -/
theorem main_never_video_in_gui_mode_witness :
    main [arg0, str_C, str_f ++ (['v'] ++ dot_mp4), str_g] = ⟨-1, none⟩ :=
  main_never_video_in_gui_mode.2 arg0 ['v'] [] (by decide)

/-- A flat index inside a `W` x `H` frame decodes, by the truncating `%` and `/`
of the source, to a point inside the frame. -/
theorem decode_in_frame (a W H : Int) (hW : 0 < W) (h0 : 0 ≤ a) (h1 : a < W * H) :
    Int.tmod a W = a % W ∧ Int.tdiv a W = a / W ∧
    0 ≤ Int.tmod a W ∧ Int.tmod a W < W ∧ 0 ≤ Int.tdiv a W ∧ Int.tdiv a W < H := by
  have e1 : Int.tmod a W = a % W := Int.tmod_eq_emod h0 (Int.le_of_lt hW)
  have e2 : Int.tdiv a W = a / W := Int.tdiv_eq_ediv h0 (Int.le_of_lt hW)
  rw [e1, e2]
  refine ⟨rfl, rfl, Int.emod_nonneg a (Int.ne_of_gt hW), Int.emod_lt_of_pos a hW,
    Int.ediv_nonneg h0 (Int.le_of_lt hW), ?_⟩
  exact Int.ediv_lt_of_lt_mul hW (by rw [Int.mul_comm]; exact h1)

/-- Two flat indices inside the frame decode to the same point only when they
are equal. -/
theorem decode_injective (a b W H : Int) (hW : 0 < W) (ha0 : 0 ≤ a) (ha1 : a < W * H)
    (hb0 : 0 ≤ b) (hb1 : b < W * H)
    (hx : Int.tmod a W = Int.tmod b W) (hy : Int.tdiv a W = Int.tdiv b W) : a = b := by
  obtain ⟨ea1, ea2, _⟩ := decode_in_frame a W H hW ha0 ha1
  obtain ⟨eb1, eb2, _⟩ := decode_in_frame b W H hW hb0 hb1
  rw [ea1, eb1] at hx
  rw [ea2, eb2] at hy
  rw [← Int.emod_add_ediv a W, ← Int.emod_add_ediv b W, hx, hy]

theorem motionFrom_count (idx1 idx2 : List Int) (W H : Int) (hW : 0 < W) :
    ∀ (n i : Nat), i + n ≤ idx1.length → i + n ≤ idx2.length →
      (∀ j a, i ≤ j → j < i + n → idx1.get? j = some a → 0 ≤ a ∧ a < W * H) →
      (∀ j a, i ≤ j → j < i + n → idx2.get? j = some a → 0 ≤ a ∧ a < W * H) →
      ∃ arrows, motionFrom idx1 idx2 W H W H n i = some arrows ∧
        arrows.length =
          (List.range' i n).countP (fun j => decide (idx1.get? j ≠ idx2.get? j)) ∧
        ∀ a ∈ arrows, 0 ≤ a.x1 ∧ a.x1 < W ∧ 0 ≤ a.y1 ∧ a.y1 < H ∧
          0 ≤ a.x2 ∧ a.x2 < W ∧ 0 ≤ a.y2 ∧ a.y2 < H
  | 0, i, _, _, _, _ => ⟨[], rfl, by simp, by simp⟩
  | n + 1, i, hl1, hl2, hr1, hr2 => by
    obtain ⟨rest, hrest, hlen, hin⟩ := motionFrom_count idx1 idx2 W H hW n (i + 1)
      (by omega) (by omega)
      (fun j a h1 h2 h3 => hr1 j a (by omega) (by omega) h3)
      (fun j a h1 h2 h3 => hr2 j a (by omega) (by omega) h3)
    cases h1 : idx1.get? i with
    | none => rw [List.get?_eq_none] at h1; omega
    | some a =>
      cases h2 : idx2.get? i with
      | none => rw [List.get?_eq_none] at h2; omega
      | some b =>
        obtain ⟨ha0, ha1⟩ := hr1 i a (Nat.le_refl i) (by omega) h1
        obtain ⟨hb0, hb1⟩ := hr2 i b (Nat.le_refl i) (by omega) h2
        obtain ⟨_, _, a1, a2, a3, a4⟩ := decode_in_frame a W H hW ha0 ha1
        obtain ⟨_, _, b1, b2, b3, b4⟩ := decode_in_frame b W H hW hb0 hb1
        have hne : W ≠ 0 := Int.ne_of_gt hW
        unfold motionFrom
        simp only [h1, h2, hne, if_false, hrest]
        rw [List.range'_succ, List.countP_cons, h1, h2, ← hlen]
        by_cases hab : a = b
        · subst hab
          refine ⟨rest, ?_, ?_, hin⟩
          · simp
          · simp
        · have hpt : Int.tmod a W ≠ Int.tmod b W ∨ Int.tdiv a W ≠ Int.tdiv b W := by
            by_contra hcon
            rw [not_or, not_not, not_not] at hcon
            exact hab (decode_injective a b W H hW ha0 ha1 hb0 hb1 hcon.1 hcon.2)
          refine ⟨⟨Int.tmod a W, Int.tdiv a W, Int.tmod b W, Int.tdiv b W⟩ :: rest, ?_, ?_, ?_⟩
          · rw [if_pos ⟨hpt, a1, a3, a2, a4, b1, b3, b2, b4⟩]
          · simp [hab]
          · intro x hx
            rcases List.mem_cons.1 hx with rfl | hx
            · exact ⟨a1, a2, a3, a4, b1, b2, b3, b4⟩
            · exact hin x hx

theorem mem_take_of_get? (l : List Int) (n j : Nat) (a : Int) (hj : j < n)
    (h : l.get? j = some a) : a ∈ l.take n := by
  rw [List.get?_eq_getElem?] at h
  exact List.getElem?_mem (n := j) (by rw [List.getElem?_take_of_lt hj]; exact h)

/-- C12: in the motion-vector loop of `opticalNaive`, for two frames of the same
size `width` x `height` with `width > 0`, host index arrays of
`width * height` entries, `mappingCount ≤ width * height`, and the first
`mappingCount` entries of both arrays in `[0, width * height)`: every array
read is in bounds and the loop completes; every decoded point
`(idx % width, idx / width)` lies inside the frame; `validCount`, the number of
arrows drawn, is the number of `i < mappingCount` with `idx1[i] ≠ idx2[i]`; the
averaged arrow, with its division by `validCount`, is drawn only when
`validCount > 0`; and an identity mapping draws nothing. -/
theorem motion_vectors_valid_count (idx1 idx2 : List Int) (mappingCount : Int)
    (width height : Nat) (hw : 0 < width)
    (hcount : mappingCount ≤ ((width * height : Nat) : Int))
    (hlen1 : idx1.length = width * height) (hlen2 : idx2.length = width * height)
    (hr1 : ∀ a ∈ idx1.take mappingCount.toNat, 0 ≤ a ∧ a < ((width * height : Nat) : Int))
    (hr2 : ∀ a ∈ idx2.take mappingCount.toNat, 0 ≤ a ∧ a < ((width * height : Nat) : Int)) :
    (mappingCount.toNat ≤ idx1.length ∧ mappingCount.toNat ≤ idx2.length) ∧
    (∀ i a, i < mappingCount.toNat → (idx1.get? i = some a ∨ idx2.get? i = some a) →
      0 ≤ Int.tmod a width ∧ Int.tmod a width < width ∧
      0 ≤ Int.tdiv a width ∧ Int.tdiv a width < height) ∧
    ∃ arrows,
      motionVectors idx1 idx2 mappingCount width height width height = some arrows ∧
      arrows.length =
        (List.range mappingCount.toNat).countP
          (fun i => decide (idx1.get? i ≠ idx2.get? i)) ∧
      (∀ n, Event.averageArrow n ∈ arrowEvents arrows → 0 < n) ∧
      ((∀ i, i < mappingCount.toNat → idx1.get? i = idx2.get? i) →
        arrows = [] ∧ arrowEvents arrows = []) := by
  have hW : (0 : Int) < (width : Int) := Int.ofNat_lt.2 hw
  have hmul : ((width * height : Nat) : Int) = (width : Int) * (height : Int) :=
    Int.ofNat_mul width height
  have hn : mappingCount.toNat ≤ width * height := by omega
  have hb1 : ∀ j a, j < mappingCount.toNat → idx1.get? j = some a →
      0 ≤ a ∧ a < (width : Int) * (height : Int) := by
    intro j a hj h
    rw [← hmul]
    exact hr1 a (mem_take_of_get? idx1 _ j a hj h)
  have hb2 : ∀ j a, j < mappingCount.toNat → idx2.get? j = some a →
      0 ≤ a ∧ a < (width : Int) * (height : Int) := by
    intro j a hj h
    rw [← hmul]
    exact hr2 a (mem_take_of_get? idx2 _ j a hj h)
  refine ⟨⟨by omega, by omega⟩, ?_, ?_⟩
  · intro i a hi h
    have hin : 0 ≤ a ∧ a < (width : Int) * (height : Int) := by
      rcases h with h | h
      · exact hb1 i a hi h
      · exact hb2 i a hi h
    obtain ⟨_, _, c1, c2, c3, c4⟩ := decode_in_frame a width height hW hin.1 hin.2
    exact ⟨c1, c2, c3, c4⟩
  · obtain ⟨arrows, hrun, hlen, _⟩ := motionFrom_count idx1 idx2 width height hW
      mappingCount.toNat 0 (by omega) (by omega)
      (fun j a _ h2 h3 => hb1 j a (by omega) h3)
      (fun j a _ h2 h3 => hb2 j a (by omega) h3)
    refine ⟨arrows, hrun, ?_, ?_, ?_⟩
    · rw [hlen, List.range_eq_range']
    · intro n hmem
      unfold arrowEvents at hmem
      rcases List.mem_append.1 hmem with h | h
      · obtain ⟨x, _, hx⟩ := List.mem_map.1 h
        cases hx
      · split at h
        · rename_i hpos
          rw [List.mem_singleton] at h
          injection h with h
          omega
        · cases h
    · intro hid
      have h0 : arrows.length = 0 := by
        rw [hlen, List.countP_eq_zero]
        intro j hj
        have hj' : j < mappingCount.toNat := by
          simpa using (List.mem_range'_1.1 hj).2
        simpa using hid j hj'
      have harr : arrows = [] := List.length_eq_zero.1 h0
      subst harr
      exact ⟨rfl, rfl⟩

/-- C12, evaluated on a 2x2 frame with three matches, the second one moving
from index 1 to index 3: one arrow is drawn, from (1, 0) to (1, 1). -/
theorem motion_vectors_valid_count_witness :
    motionVectors [0, 1, 2, 3] [0, 3, 2, 3] 3 (2 : Nat) (2 : Nat) (2 : Nat) (2 : Nat) =
      some [⟨1, 0, 1, 1⟩] ∧
    ∃ arrows,
      motionVectors [0, 1, 2, 3] [0, 3, 2, 3] 3 (2 : Nat) (2 : Nat) (2 : Nat) (2 : Nat) =
        some arrows ∧
      arrows.length =
        (List.range (3 : Int).toNat).countP
          (fun i => decide (([0, 1, 2, 3] : List Int).get? i ≠
            ([0, 3, 2, 3] : List Int).get? i)) ∧
      (∀ n, Event.averageArrow n ∈ arrowEvents arrows → 0 < n) ∧
      ((∀ i, i < (3 : Int).toNat →
          ([0, 1, 2, 3] : List Int).get? i = ([0, 3, 2, 3] : List Int).get? i) →
        arrows = [] ∧ arrowEvents arrows = []) :=
  ⟨by decide,
    (motion_vectors_valid_count [0, 1, 2, 3] [0, 3, 2, 3] 3 2 2 (by decide) (by decide)
      (by decide) (by decide) (by decide) (by decide)).2.2⟩

theorem kernelUses_append (L M : List Event) :
    kernelUses (L ++ M) = kernelUses L ++ kernelUses M := by
  simp [kernelUses]

theorem kernelUses_log (s : St α) (es : List Event) :
    kernelUses (s.log es).trace = kernelUses s.trace ++ kernelUses es := by
  rw [log_trace, kernelUses_append]

theorem kernelUses_hiPrepare (E : Ext α) (img : Mat α) (w h : Nat) (s : St α) :
    kernelUses (hiCommon E w h (hiSetup E img s)).trace =
      kernelUses s.trace ++
        [KernelUse.computed E.FILTER_WIDTH,
         KernelUse.uploaded DevBuf.gaussian_kernel_d (E.FILTER_WIDTH * E.FILTER_WIDTH * 4),
         KernelUse.blur DevBuf.gaussian_kernel_d E.FILTER_WIDTH] := by
  simp [hiCommon, hiSetup, rgbToGrayKernelWrap, convolutionGPUWrap, St.log, St.write,
    kernelUses, kernelUseOf]

theorem kernelUses_cannyGuiLoop (E : Ext α) (w h : Nat) (fv : Bool) :
    ∀ (ticks : List Tick) (l hi : Int) (data : α) (s : St α) (r : α × St α),
      cannyGuiLoop E w h fv ticks l hi data s = some r →
      kernelUses r.2.trace = kernelUses s.trace
  | [], _, _, _, _, _, hr => by simp [cannyGuiLoop] at hr
  | t :: ts, l, hi, data, s, r, hr => by
    unfold cannyGuiLoop at hr
    simp only at hr
    split at hr
    · injection hr with hr
      subst hr
      simp [cannyCall, St.log, St.write, cannyEvent, kernelUses, kernelUseOf]
    · rw [kernelUses_cannyGuiLoop E w h fv ts _ _ _ _ r hr]
      simp [cannyCall, St.log, St.write, cannyEvent, kernelUses, kernelUseOf]

theorem kernelUses_hiSwitch (E : Ext α) (mode : Mode) (w h : Nat) (low high : Int) (fv : Bool)
    (data : α) (s : St α) (r : α × St α)
    (hr : hiSwitch E mode w h low high fv data s = some r) :
    kernelUses r.2.trace = kernelUses s.trace ++ switchWindow E mode := by
  cases mode
  case CANNY_GUI =>
    simp only [hiSwitch] at hr
    rw [kernelUses_cannyGuiLoop E w h fv _ _ _ _ _ r hr]
    simp [St.log, kernelUses, kernelUseOf, switchWindow]
  all_goals
    simp only [hiSwitch, Option.some.injEq] at hr
    subst hr
    simp [harrisCall, cannyCall, St.log, St.write, cannyEvent, kernelUses, kernelUseOf,
      switchWindow]

theorem kernelUses_hiShow (mode : Mode) (fv : Bool) (s s' : St α)
    (hs : hiShow mode fv s = some (Ending.returned s')) :
    kernelUses s'.trace = kernelUses s.trace := by
  unfold hiShow at hs
  split at hs
  · simp only at hs
    split at hs
    · cases hs
    · cases fv
      · simp only [if_true] at hs
        cases hu : s.ui with
        | nil => simp [waitKey0, St.log, hu] at hs
        | cons t ts =>
          simp [waitKey0, St.log, hu] at hs
          subst hs
          simp [kernelUses, kernelUseOf]
      · simp [St.log] at hs
        subst hs
        simp [kernelUses, kernelUseOf]
  · simp only [Option.some.injEq, Ending.returned.injEq] at hs
    subst hs
    rfl

theorem kernelUses_hiRelease (s : St α) :
    kernelUses (hiRelease s).trace = kernelUses s.trace := by
  simp [hiRelease, St.log, kernelUses, kernelUseOf]

theorem kernelUses_handleImageBody (E : Ext α) (mode : Mode) (low high : Int) (fv : Bool)
    (img : Mat α) (s s' : St α)
    (hs : handleImageBody E mode low high fv img s = some (Ending.returned s')) :
    kernelUses s'.trace =
      kernelUses s.trace ++
        ([KernelUse.computed E.FILTER_WIDTH,
          KernelUse.uploaded DevBuf.gaussian_kernel_d (E.FILTER_WIDTH * E.FILTER_WIDTH * 4),
          KernelUse.blur DevBuf.gaussian_kernel_d E.FILTER_WIDTH] ++ switchWindow E mode) := by
  unfold handleImageBody at hs
  simp only at hs
  split at hs
  · cases hs
  · rename_i r hsw
    split at hs
    · cases hs
    · cases hs
    · rename_i s2 hsh
      simp only [Option.some.injEq, Ending.returned.injEq] at hs
      subst hs
      rw [kernelUses_hiRelease, kernelUses_hiShow mode fv _ _ hsh,
        kernelUses_hiSwitch E mode _ _ low high fv _ _ r hsw, kernelUses_hiPrepare,
        kernelUses_log]
      simp [kernelUses, kernelUseOf]

theorem kernelUses_handleImage (E : Ext α) (mode : Mode) (filename : Str) (low high : Int)
    (fv : Bool) (img_v : Mat α) (s s' : St α)
    (hreach : fv = true ∨ (E.imread filename).empty = false)
    (hs : handleImage E mode filename low high fv img_v s = some s') :
    kernelUses s'.trace =
      kernelUses s.trace ++
        ([KernelUse.computed E.FILTER_WIDTH,
          KernelUse.uploaded DevBuf.gaussian_kernel_d (E.FILTER_WIDTH * E.FILTER_WIDTH * 4),
          KernelUse.blur DevBuf.gaussian_kernel_d E.FILTER_WIDTH] ++ switchWindow E mode) := by
  unfold handleImage at hs
  rw [returnOf_eq_some] at hs
  unfold handleImageRun at hs
  cases fv
  · have he : (E.imread filename).empty = false := by
      rcases hreach with h | h
      · exact absurd h (by simp)
      · exact h
    simp only [if_true, he, Bool.false_eq_true, if_false] at hs
    rw [kernelUses_handleImageBody E mode low high false _ _ s' hs, kernelUses_log]
    simp [kernelUses, kernelUseOf]
  · simp only [Bool.true_eq_false, if_false] at hs
    exact kernelUses_handleImageBody E mode low high true img_v s s' hs

theorem kernelUses_onSetup (E : Ext α) (p n : Mat α) (s : St α) :
    kernelUses (onSetup E p n s).trace =
      kernelUses s.trace ++
        [KernelUse.computed E.FILTER_WIDTH,
         KernelUse.uploaded DevBuf.gaussian_kernel_d (E.FILTER_WIDTH * E.FILTER_WIDTH * 4)] := by
  simp [onSetup, St.log, St.write, kernelUses, kernelUseOf]

theorem kernelUses_onStages (E : Ext α) (first : Bool) (w h : Nat) (p n : Mat α) (s : St α) :
    kernelUses (onStages E first w h p n s).2.2.2.trace =
      kernelUses s.trace ++ stagesUses E first := by
  cases first <;>
    simp [onStages, onHarris, rgbToGrayKernelWrap, convolutionGPUWrap, St.log, St.write,
      kernelUses, kernelUseOf, stagesUses]

theorem kernelUses_arrowEvents (arrows : List Arrow) : kernelUses (arrowEvents arrows) = [] := by
  unfold kernelUses
  rw [List.filterMap_eq_nil_iff]
  intro e he
  unfold arrowEvents at he
  rcases List.mem_append.1 he with h | h
  · obtain ⟨a, _, rfl⟩ := List.mem_map.1 h
    rfl
  · split at h
    · simp at h; subst h; rfl
    · cases h

theorem kernelUses_waitKey1 (s : St α) :
    kernelUses (waitKey1 s).2.trace = kernelUses s.trace := by
  rw [(waitKey1_key s).2.2, kernelUses_append]
  simp [kernelUses, kernelUseOf]

theorem kernelUses_waitKey0 (s s' : St α) (hs : waitKey0 s = some s') :
    kernelUses s'.trace = kernelUses s.trace := by
  unfold waitKey0 at hs
  cases hu : s.ui with
  | nil => simp [hu] at hs
  | cons t ts =>
    simp [hu] at hs
    subst hs
    simp [kernelUses, kernelUseOf]

theorem kernelUses_onMatch (E : Ext α) (w h : Nat) (thr : α) (s : St α) :
    kernelUses (onMatch E w h thr s).2.trace = kernelUses s.trace := by
  simp [onMatch, St.log, St.write, kernelUses, kernelUseOf]

theorem kernelUses_onCarry (w h sz : Nat) (s : St α) :
    kernelUses (onCarry w h sz s).trace = kernelUses s.trace := by
  simp [onCarry, memcpyD2D, St.log, St.write, kernelUses, kernelUseOf]

theorem kernelUses_onFetch (E : Ext α) (sz : Nat) (p read : Mat α) (s : St α) :
    kernelUses (onFetch E sz p read s).2.2.trace = kernelUses s.trace := by
  simp [onFetch, St.log, St.write, kernelUses, kernelUseOf]

theorem kernelUses_onIterTail (E : Ext α) (video : Bool) (w h sz : Nat) (p n : Mat α)
    (thr : α) (s : St α) (r : IterEnd α)
    (hr : onIterTail E video w h sz p n thr s = some r) :
    kernelUses r.state.trace = kernelUses s.trace := by
  have hshown : ∀ arrows : List Arrow,
      kernelUses ((onMatch E w h thr s).2.log (arrowEvents arrows ++
        [Event.cvtColor HostMat.next_frame ColorCode.RGBA2BGR,
         Event.imshow Window.frame HostMat.next_frame])).trace = kernelUses s.trace := by
    intro arrows
    rw [kernelUses_log, kernelUses_onMatch, kernelUses_append, kernelUses_arrowEvents]
    simp [kernelUses, kernelUseOf]
  unfold onIterTail at hr
  simp only at hr
  split at hr
  · cases hr
  · rename_i arrows _
    split at hr
    · injection hr with hr
      subst hr
      simp only [IterEnd.state]
      rw [kernelUses_waitKey1, hshown]
    · split at hr
      · split at hr
        · cases hr
        · rename_i s4 h4
          injection hr with hr
          subst hr
          simp only [IterEnd.state]
          rw [kernelUses_waitKey0 _ _ h4, kernelUses_waitKey1, hshown]
      · injection hr with hr
        subst hr
        simp only [IterEnd.state]
        rw [kernelUses_onCarry, kernelUses_log, kernelUses_waitKey1, hshown]
        simp [kernelUses, kernelUseOf]

theorem kernelUses_onIter (E : Ext α) (first video : Bool) (w h sz : Nat) (p n : Mat α)
    (s : St α) (r : IterEnd α) (hr : onIter E first video w h sz p n s = some r) :
    kernelUses r.state.trace = kernelUses s.trace ++ stagesUses E first := by
  unfold onIter at hr
  rw [kernelUses_onIterTail E video w h sz _ _ _ _ r hr, kernelUses_onStages]

theorem kernelUses_onRest (E : Ext α) (video : Bool) (w h sz : Nat) :
    ∀ (frames : List (Mat α)) (p : Mat α) (s s' : St α),
      onRest E video w h sz frames p s = some s' →
      ∃ k, kernelUses s'.trace = kernelUses s.trace ++ laterUses E k
  | [], p, s, s', hs => by
    simp only [onRest, Option.some.injEq] at hs
    subst hs
    exact ⟨0, by rw [kernelUses_log]; rfl⟩
  | read :: rest, p, s, s', hs => by
    unfold onRest at hs
    simp only at hs
    have h0 : kernelUses (s.log [Event.frameRead HostMat.next_frame]).trace =
        kernelUses s.trace := by
      rw [kernelUses_log]; simp [kernelUses, kernelUseOf]
    split at hs
    · injection hs with hs
      subst hs
      exact ⟨0, by rw [h0]; simp [laterUses]⟩
    · split at hs
      · cases hs
      · rename_i s2 hit
        injection hs with hs
        subst hs
        have := kernelUses_onIter E false video w h sz _ _ _ _ hit
        simp only [IterEnd.state] at this
        exact ⟨1, by rw [this, kernelUses_onFetch, h0]; simp [laterUses]⟩
      · rename_i p2 n2 s2 hit
        have h2 := kernelUses_onIter E false video w h sz _ _ _ _ hit
        simp only [IterEnd.state] at h2
        obtain ⟨k, hk⟩ := kernelUses_onRest E video w h sz rest p2 s2 s' hs
        exact ⟨k + 1, by rw [hk, h2, kernelUses_onFetch, h0]; simp [laterUses]⟩

theorem kernelUses_onLoop (E : Ext α) (video : Bool) (w h sz : Nat) (frames : List (Mat α))
    (p n : Mat α) (s s' : St α) (hs : onLoop E video w h sz frames p n s = some s') :
    ∃ k, kernelUses s'.trace = kernelUses s.trace ++ (stagesUses E true ++ laterUses E k) := by
  unfold onLoop at hs
  split at hs
  · cases hs
  · rename_i s2 hit
    injection hs with hs
    subst hs
    have := kernelUses_onIter E true video w h sz _ _ _ _ hit
    simp only [IterEnd.state] at this
    exact ⟨0, by rw [this]; simp [laterUses]⟩
  · rename_i p2 n2 s2 hit
    have h2 := kernelUses_onIter E true video w h sz _ _ _ _ hit
    simp only [IterEnd.state] at h2
    obtain ⟨k, hk⟩ := kernelUses_onRest E video w h sz frames p2 s2 s' hs
    exact ⟨k, by rw [hk, h2, List.append_assoc]⟩

theorem kernelUses_onRelease (s : St α) :
    kernelUses (onRelease s).trace = kernelUses s.trace := by
  simp [onRelease, St.log, kernelUses, kernelUseOf]

theorem kernelUses_opticalNaiveBody (E : Ext α) (video : Bool) (frames : List (Mat α))
    (p n : Mat α) (s s' : St α)
    (hs : opticalNaiveBody E video frames p n s = some (Ending.returned s')) :
    ∃ k, kernelUses s'.trace =
      kernelUses s.trace ++
        ([KernelUse.computed E.FILTER_WIDTH,
          KernelUse.uploaded DevBuf.gaussian_kernel_d (E.FILTER_WIDTH * E.FILTER_WIDTH * 4)] ++
          (stagesUses E true ++ laterUses E k)) := by
  unfold opticalNaiveBody at hs
  simp only at hs
  split at hs
  · cases hs
  · split at hs
    · cases hs
    · split at hs
      · cases hs
      · rename_i s2 hl
        simp only [Option.some.injEq, Ending.returned.injEq] at hs
        subst hs
        obtain ⟨k, hk⟩ := kernelUses_onLoop E video _ _ _ frames _ _ _ s2 hl
        refine ⟨k, ?_⟩
        rw [kernelUses_onRelease, hk, kernelUses_onSetup, kernelUses_log, kernelUses_log]
        simp [kernelUses, kernelUseOf]

theorem kernelUses_opticalNaive (E : Ext α) (filename filename2 : Str) (video : Bool)
    (s s' : St α) (hreach : video = false ∨ E.videoFrames filename ≠ none)
    (hs : opticalNaive E filename filename2 video s = some s') :
    ∃ k, kernelUses s'.trace =
      kernelUses s.trace ++
        ([KernelUse.computed E.FILTER_WIDTH,
          KernelUse.uploaded DevBuf.gaussian_kernel_d (E.FILTER_WIDTH * E.FILTER_WIDTH * 4)] ++
          (stagesUses E true ++ laterUses E k)) := by
  unfold opticalNaive at hs
  rw [returnOf_eq_some] at hs
  unfold opticalNaiveRun at hs
  cases video
  · simp only [Bool.false_eq_true, if_false] at hs
    obtain ⟨k, hk⟩ := kernelUses_opticalNaiveBody E false _ _ _ _ s' hs
    refine ⟨k, ?_⟩
    rw [hk, kernelUses_log, kernelUses_log]
    simp [kernelUses, kernelUseOf]
  · simp only [if_true] at hs
    cases hv : E.videoFrames filename with
    | none =>
      rcases hreach with h | h
      · exact absurd h (by simp)
      · exact absurd hv h
    | some frames =>
      simp only [hv] at hs
      obtain ⟨k, hk⟩ := kernelUses_opticalNaiveBody E true _ _ _ _ s' hs
      refine ⟨k, ?_⟩
      rw [hk, kernelUses_log, kernelUses_log]
      simp [kernelUses, kernelUseOf]

theorem laterUses_mem (E : Ext α) :
    ∀ (k : Nat) (u : KernelUse), u ∈ laterUses E k → u ∈ stagesUses E false
  | 0, u, h => by cases h
  | k + 1, u, h => by
    unfold laterUses at h
    rcases List.mem_append.1 h with h | h
    · exact h
    · exact laterUses_mem E k u h

/-- C13 (the code departs from the claim): every run of `handleImage` that
reaches the allocation phase and returns computes the Gaussian table with
`FILTER_WIDTH`, uploads its `FILTER_WIDTH * FILTER_WIDTH` floats to
`gaussian_kernel_d`, blurs with `gaussian_kernel_d` and `FILTER_WIDTH`, and in
the two corner modes hands `gaussian_kernel_d` and `FILTER_WIDTH` to the
corner-response stage: the same table and width. Every such run of
`opticalNaive` computes and uploads the table the same way and hands
`gaussian_kernel_d` and `FILTER_WIDTH` to the corner-response stage, but gives
every blur convolution `gaussian_kernel_d` with the literal width 3 (lines 449
and 450): when `FILTER_WIDTH` is not 3, no blur has the width of the window or
of the table. -/
theorem gaussian_window_and_blur_kernel :
    (∀ (E : Ext α) (mode : Mode) (filename : Str) (low high : Int) (from_video : Bool)
        (img_v : Mat α) (s s' : St α),
        (from_video = true ∨ (E.imread filename).empty = false) →
        handleImage E mode filename low high from_video img_v s = some s' →
        kernelUses s'.trace =
          kernelUses s.trace ++
            ([KernelUse.computed E.FILTER_WIDTH,
              KernelUse.uploaded DevBuf.gaussian_kernel_d
                (E.FILTER_WIDTH * E.FILTER_WIDTH * 4),
              KernelUse.blur DevBuf.gaussian_kernel_d E.FILTER_WIDTH] ++
              switchWindow E mode)) ∧
    (∀ (E : Ext α) (filename filename2 : Str) (video : Bool) (s s' : St α),
        (video = false ∨ E.videoFrames filename ≠ none) →
        opticalNaive E filename filename2 video s = some s' →
        ∃ k, kernelUses s'.trace =
          kernelUses s.trace ++
            ([KernelUse.computed E.FILTER_WIDTH,
              KernelUse.uploaded DevBuf.gaussian_kernel_d
                (E.FILTER_WIDTH * E.FILTER_WIDTH * 4)] ++
              (stagesUses E true ++ laterUses E k))) ∧
    (∀ (E : Ext α) (k : Nat), E.FILTER_WIDTH ≠ 3 →
        ∀ u ∈ stagesUses E true ++ laterUses E k,
          u ≠ KernelUse.blur DevBuf.gaussian_kernel_d E.FILTER_WIDTH ∧
          u ≠ KernelUse.window DevBuf.gaussian_kernel_d 3) := by
  refine ⟨?_, ?_, ?_⟩
  · intro E mode filename low high fv img_v s s' hreach hs
    exact kernelUses_handleImage E mode filename low high fv img_v s s' hreach hs
  · intro E filename filename2 video s s' hreach hs
    exact kernelUses_opticalNaive E filename filename2 video s s' hreach hs
  · intro E k hfw u hu
    have hne : (3 : Nat) ≠ E.FILTER_WIDTH := fun e => hfw e.symm
    rcases List.mem_append.1 hu with h | h
    · simp [stagesUses] at h
      rcases h with rfl | rfl <;> simp [hfw, hne]
    · have h' := laterUses_mem E k u h
      simp [stagesUses] at h'
      rcases h' with rfl | rfl <;> simp [hfw, hne]

/-- C13, evaluated in the sample world, where `FILTER_WIDTH` is 5:
`opticalNaive("a.jpg", "b.jpg", false)` computes the table with width 5, uploads
its 100 bytes, blurs both frames with width 3 and hands width 5 to the
corner-response stage. -/
theorem gaussian_window_and_blur_kernel_witness :
    (traceOf (opticalNaive demoExt a_jpg b_jpg false
      (demoStart [⟨32, 50, 100⟩, ⟨32, 50, 100⟩]))).map kernelUses =
      some [KernelUse.computed 5, KernelUse.uploaded DevBuf.gaussian_kernel_d 100,
        KernelUse.blur DevBuf.gaussian_kernel_d 3, KernelUse.blur DevBuf.gaussian_kernel_d 3,
        KernelUse.window DevBuf.gaussian_kernel_d 5,
        KernelUse.window DevBuf.gaussian_kernel_d 5] ∧
    ∀ u ∈ stagesUses demoExt true ++ laterUses demoExt 0,
      u ≠ KernelUse.blur DevBuf.gaussian_kernel_d demoExt.FILTER_WIDTH ∧
      u ≠ KernelUse.window DevBuf.gaussian_kernel_d 3 :=
  ⟨rfl, (gaussian_window_and_blur_kernel (α := Nat)).2.2 demoExt 0 (by decide)⟩

theorem log_log (s : St α) (L M : List Event) : (s.log L).log M = s.log (L ++ M) := by
  simp [St.log, List.append_assoc]

/-- On an empty first or second frame `opticalNaive` ends at the conversion of
line 350 or 351. -/
theorem opticalNaiveBody_throws (E : Ext α) (video : Bool) (frames : List (Mat α))
    (p n : Mat α) (s : St α) (he : p.empty = true ∨ n.empty = true) :
    opticalNaiveBody E video frames p n s =
      some (Ending.thrown (s.log (Event.cvtColor HostMat.prev_frame ColorCode.BGR2RGBA ::
        (if p.empty = true then []
          else [Event.cvtColor HostMat.next_frame ColorCode.BGR2RGBA])))) := by
  unfold opticalNaiveBody
  cases hp : p.empty with
  | true => simp
  | false =>
    have hn : n.empty = true := by
      rcases he with h | h
      · rw [hp] at h; exact absurd h (by simp)
      · exact h
    simp [hn, log_log]

/-- C4: when the decoded input frame is empty, each pipeline entry point ends
before any host or device buffer is allocated and before any stage is run.
`handleImage` loading from a file returns after the read and the error message
alone. The loop of `handleVideo` is left at the read of an empty frame (one past
the last frame included), with nothing more done; so `handleVideo` on a capture
whose first frame is empty returns after that read. `opticalNaive`, on a pair of
images or on a capture that opened, when one of its first two frames is empty
(a capture with fewer than two frames included), is ended by the exception that
`cv::cvtColor` throws at line 350 or 351: up to there it has made no call that
allocates a buffer or runs a stage. -/
theorem empty_frame_aborts_before_allocation :
    (∀ (E : Ext α) (mode : Mode) (filename : Str) (low high : Int) (img_v : Mat α)
        (s : St α), (E.imread filename).empty = true →
        handleImageRun E mode filename low high false img_v s =
          some (Ending.returned
            (s.log [Event.imread filename, Event.cerr ErrMsg.unableToLoadImage]))) ∧
    (∀ (E : Ext α) (mode : Mode) (filename : Str) (low high : Int) (frames : List (Mat α))
        (s : St α), (readFrame E frames).1.empty = true →
        handleVideoLoop E mode filename low high frames s =
          some ([], Ending.returned (s.log [Event.frameRead HostMat.img]))) ∧
    (∀ (E : Ext α) (mode : Mode) (filename : Str) (low high : Int) (frames : List (Mat α))
        (s : St α), E.videoFrames filename = some frames →
        (readFrame E frames).1.empty = true →
        handleVideoRun E mode filename low high s =
          some ([], Ending.returned
            (s.log [Event.videoCapture filename, Event.frameRead HostMat.img]))) ∧
    (∀ (E : Ext α) (filename filename2 : Str) (s : St α),
        (E.imread filename).empty = true ∨ (E.imread filename2).empty = true →
        ∃ L, opticalNaiveRun E filename filename2 false s = some (Ending.thrown (s.log L)) ∧
          ∀ e ∈ L, allocatesOrRuns e = false) ∧
    (∀ (E : Ext α) (filename filename2 : Str) (frames : List (Mat α)) (s : St α),
        E.videoFrames filename = some frames →
        (readFrame E frames).1.empty = true ∨
          (readFrame E (readFrame E frames).2).1.empty = true →
        ∃ L, opticalNaiveRun E filename filename2 true s = some (Ending.thrown (s.log L)) ∧
          ∀ e ∈ L, allocatesOrRuns e = false) := by
  have hloop : ∀ (E : Ext α) (mode : Mode) (filename : Str) (low high : Int)
      (frames : List (Mat α)) (s : St α), (readFrame E frames).1.empty = true →
      handleVideoLoop E mode filename low high frames s =
        some ([], Ending.returned (s.log [Event.frameRead HostMat.img])) := by
    intro E mode filename low high frames s he
    cases frames with
    | nil => rfl
    | cons f fs =>
      have he' : f.empty = true := he
      simp [handleVideoLoop, he']
  refine ⟨?_, hloop, ?_, ?_, ?_⟩
  · intro E mode filename low high img_v s he
    simp [handleImageRun, he, log_log]
  · intro E mode filename low high frames s hv he
    simp only [handleVideoRun, hv]
    rw [hloop E mode filename low high frames _ he, log_log]
    rfl
  · intro E filename filename2 s he
    refine ⟨[Event.videoCapture filename, Event.imread filename, Event.imread filename2,
      Event.cvtColor HostMat.prev_frame ColorCode.BGR2RGBA] ++
        (if (E.imread filename).empty = true then []
          else [Event.cvtColor HostMat.next_frame ColorCode.BGR2RGBA]), ?_, ?_⟩
    · simp only [opticalNaiveRun, Bool.false_eq_true, if_false]
      rw [opticalNaiveBody_throws E false _ _ _ _ he, log_log, log_log]
      rfl
    · intro e hmem
      split at hmem <;> simp at hmem <;> rcases hmem with rfl | rfl | rfl | rfl | rfl <;> rfl
  · intro E filename filename2 frames s hv he
    refine ⟨[Event.videoCapture filename, Event.frameRead HostMat.prev_frame,
      Event.frameRead HostMat.next_frame,
      Event.cvtColor HostMat.prev_frame ColorCode.BGR2RGBA] ++
        (if (readFrame E frames).1.empty = true then []
          else [Event.cvtColor HostMat.next_frame ColorCode.BGR2RGBA]), ?_, ?_⟩
    · simp only [opticalNaiveRun, if_true, hv]
      rw [opticalNaiveBody_throws E true _ _ _ _ he, log_log, log_log]
      rfl
    · intro e hmem
      split at hmem <;> simp at hmem <;> rcases hmem with rfl | rfl | rfl | rfl | rfl <;> rfl

/-- C4, evaluated in the sample world, where the file `none.jpg` is missing:
`opticalNaive("none.jpg", "none.jpg", false)` is ended by the exception of the
first conversion, after the capture and the two reads; with `a.jpg` as its first
image, by that of the second conversion; and
`handleImage(HARRIS, "none.jpg", 0, 0)` returns after the error message. -/
theorem empty_frame_aborts_before_allocation_witness :
    (demoExt.imread none_jpg).empty = true ∧
    (∃ L, opticalNaiveRun demoExt none_jpg none_jpg false (demoStart []) =
        some (Ending.thrown ((demoStart []).log L)) ∧ ∀ e ∈ L, allocatesOrRuns e = false) ∧
    endingOf (opticalNaiveRun demoExt none_jpg none_jpg false (demoStart [])) =
      some (false, [Event.videoCapture none_jpg, Event.imread none_jpg, Event.imread none_jpg,
        Event.cvtColor HostMat.prev_frame ColorCode.BGR2RGBA]) ∧
    endingOf (opticalNaiveRun demoExt a_jpg none_jpg false (demoStart [])) =
      some (false, [Event.videoCapture a_jpg, Event.imread a_jpg, Event.imread none_jpg,
        Event.cvtColor HostMat.prev_frame ColorCode.BGR2RGBA,
        Event.cvtColor HostMat.next_frame ColorCode.BGR2RGBA]) ∧
    endingOf (handleImageRun demoExt Mode.HARRIS none_jpg 0 0 false (emptyMat demoExt)
        (demoStart [])) =
      some (true, [Event.imread none_jpg, Event.cerr ErrMsg.unableToLoadImage]) :=
  ⟨by decide,
    empty_frame_aborts_before_allocation.2.2.2.1 demoExt none_jpg none_jpg (demoStart [])
      (Or.inl (by decide)),
    by decide, by decide, by decide⟩
theorem handleVideoLoop_step (E : Ext α) (mode : Mode) (filename : Str) (low high : Int)
    (img : Mat α) (rest : List (Mat α)) (s s' : St α) (its : List (VideoIter α))
    (he : img.empty = false)
    (h : handleVideoLoop E mode filename low high (img :: rest) s =
      some (its, Ending.returned s')) :
    ∃ s1, handleImage E mode filename low high true img
        (s.log [Event.frameRead HostMat.img]) = some s1 ∧
      (((waitKey1 s1).1 = 27 ∧ its = [⟨img, (waitKey1 s1).1⟩] ∧ s' = (waitKey1 s1).2) ∨
       ((waitKey1 s1).1 ≠ 27 ∧ ∃ its2, its = ⟨img, (waitKey1 s1).1⟩ :: its2 ∧
          handleVideoLoop E mode filename low high rest (waitKey1 s1).2 =
            some (its2, Ending.returned s'))) := by
  unfold handleVideoLoop at h
  simp only [he, Bool.false_eq_true, if_false] at h
  split at h
  · cases h
  · cases h
  · rename_i s1 h1
    refine ⟨s1, (returnOf_eq_some _ _).2 h1, ?_⟩
    split at h
    · rename_i hk
      injection h with h
      injection h with h1 h2
      injection h2 with h2
      exact Or.inl ⟨hk, h1.symm, h2.symm⟩
    · rename_i hk
      split at h
      · cases h
      · rename_i r hr
        injection h with h
        injection h with h1 h2
        refine Or.inr ⟨hk, r.1, h1.symm, ?_⟩
        rw [hr, ← h2]

theorem handleVideoLoop_iters (E : Ext α) (mode : Mode) (filename : Str) (low high : Int) :
    ∀ (frames : List (Mat α)) (s s' : St α) (its : List (VideoIter α)),
      handleVideoLoop E mode filename low high frames s = some (its, Ending.returned s') →
      its.map (fun it => it.frame) <+: frames.takeWhile nonEmpty ∧
      (∀ it ∈ its.dropLast, it.key ≠ 27) ∧
      (its.length < (frames.takeWhile nonEmpty).length →
        ∃ it, its.getLast? = some it ∧ it.key = 27)
  | [], s, s', its, h => by
    simp only [handleVideoLoop, Option.some.injEq, Prod.mk.injEq] at h
    obtain ⟨rfl, _⟩ := h
    simp
  | img :: rest, s, s', its, h => by
    cases he : img.empty with
    | true =>
      unfold handleVideoLoop at h
      simp only [he, if_true, Option.some.injEq, Prod.mk.injEq] at h
      obtain ⟨rfl, _⟩ := h
      simp [List.takeWhile_cons, nonEmpty, he]
    | false =>
      obtain ⟨s1, _, hcase⟩ := handleVideoLoop_step E mode filename low high img rest s s' its he h
      have htw : (img :: rest).takeWhile nonEmpty = img :: rest.takeWhile nonEmpty := by
        simp [List.takeWhile_cons, nonEmpty, he]
      rw [htw]
      rcases hcase with ⟨hk, rfl, _⟩ | ⟨hk, its2, rfl, hrec⟩
      · refine ⟨by simp, by simp, ?_⟩
        intro _
        exact ⟨_, rfl, hk⟩
      · obtain ⟨ih1, ih2, ih3⟩ := handleVideoLoop_iters E mode filename low high rest _ s' its2 hrec
        refine ⟨?_, ?_, ?_⟩
        · simpa using ih1
        · intro it hit
          cases its2 with
          | nil => simp at hit
          | cons b bs =>
            rw [List.dropLast_cons₂] at hit
            rcases List.mem_cons.1 hit with rfl | hit
            · exact hk
            · exact ih2 it hit
        · intro hlen
          obtain ⟨it, hit, hkey⟩ := ih3 (by simpa using hlen)
          refine ⟨it, ?_, hkey⟩
          cases its2 with
          | nil => simp at hit
          | cons b bs => rw [List.getLast?_cons_cons]; exact hit

theorem handleVideoLoop_keys (E : Ext α) (mode : Mode) (filename : Str) (low high : Int)
    (hm : mode ≠ Mode.CANNY_GUI) :
    ∀ (frames : List (Mat α)) (s s' : St α) (its : List (VideoIter α)),
      handleVideoLoop E mode filename low high frames s = some (its, Ending.returned s') →
      keyReads s'.trace = keyReads s.trace ++ its.map (fun it => it.key) ∧
      ∀ i, i < its.length → (its.map (fun it => it.key)).getD i 0 = keyStream s.ui i
  | [], s, s', its, h => by
    simp only [handleVideoLoop, Option.some.injEq, Prod.mk.injEq, Ending.returned.injEq] at h
    obtain ⟨rfl, rfl⟩ := h
    simp [St.log, keyReads_append]
    rfl
  | img :: rest, s, s', its, h => by
    cases he : img.empty with
    | true =>
      unfold handleVideoLoop at h
      simp only [he, if_true, Option.some.injEq, Prod.mk.injEq, Ending.returned.injEq] at h
      obtain ⟨rfl, rfl⟩ := h
      simp [St.log, keyReads_append]
      rfl
    | false =>
      obtain ⟨s1, h1, hcase⟩ :=
        handleVideoLoop_step E mode filename low high img rest s s' its he h
      obtain ⟨L, hL, _, _, _, _, _, hk1, _⟩ := handleImage_trace E mode filename low high true
        img (s.log [Event.frameRead HostMat.img]) s1 (Or.inl rfl) h1
      obtain ⟨hkr, hui⟩ := hk1 hm rfl
      have hui' : s1.ui = s.ui := hui
      obtain ⟨w1, w2, w3⟩ := waitKey1_key s1
      have hbase : keyReads (waitKey1 s1).2.trace =
          keyReads s.trace ++ [(waitKey1 s1).1] := by
        rw [w3, hL, log_trace]
        simp only [keyReads_append, hkr, List.append_nil]
        simp [keyReads, keyOf]
      rcases hcase with ⟨_, rfl, rfl⟩ | ⟨_, its2, rfl, hrec⟩
      · refine ⟨by simpa using hbase, ?_⟩
        intro i hi
        have : i = 0 := by simpa using hi
        subst this
        simp [w1, hui']
      · obtain ⟨ih1, ih2⟩ := handleVideoLoop_keys E mode filename low high hm rest _ s' its2 hrec
        refine ⟨?_, ?_⟩
        · rw [ih1, hbase]; simp
        · intro i hi
          cases i with
          | zero => simp [w1, hui']
          | succ j =>
            have := ih2 j (by simpa using hi)
            simp only [List.map_cons, List.getD_cons_succ]
            rw [this, w2, hui']

theorem handleVideoLoop_returns (E : Ext α) (mode : Mode) (filename : Str) (low high : Int)
    (hm : mode ≠ Mode.CANNY_GUI) (ho : mode ≠ Mode.OTSU_BIN) :
    ∀ (frames : List (Mat α)) (s : St α),
      ∃ its s', handleVideoLoop E mode filename low high frames s =
        some (its, Ending.returned s')
  | [], s => ⟨_, _, rfl⟩
  | img :: rest, s => by
    unfold handleVideoLoop
    simp only
    split
    · exact ⟨_, _, rfl⟩
    · obtain ⟨s1, h1⟩ := handleImageRun_returns E mode filename low high true img
        (s.log [Event.frameRead HostMat.img]) hm ho (Or.inl rfl)
      rw [h1]
      simp only
      split
      · exact ⟨_, _, rfl⟩
      · obtain ⟨its, s', hr⟩ :=
          handleVideoLoop_returns E mode filename low high hm ho rest (waitKey1 s1).2
        rw [hr]
        exact ⟨_, _, rfl⟩

theorem handleVideoLoop_blocks (E : Ext α) (mode : Mode) (filename : Str) (low high : Int) :
    ∀ (frames : List (Mat α)) (s s' : St α) (its : List (VideoIter α)),
      handleVideoLoop E mode filename low high frames s = some (its, Ending.returned s') →
      ∃ (blocks : List (List Event)) (tail : List Event),
        blocks.length = its.length ∧
        (∀ B ∈ blocks, B.getLast? = some Event.cudaGetLastError ∧
          (mode ≠ Mode.CANNY_GUI → keyReads B = [])) ∧
        keyReads tail = [] ∧
        s'.trace = s.trace ++ videoTrace blocks (its.map (fun it => it.key)) ++ tail
  | [], s, s', its, h => by
    simp only [handleVideoLoop, Option.some.injEq, Prod.mk.injEq, Ending.returned.injEq] at h
    obtain ⟨rfl, rfl⟩ := h
    exact ⟨[], [Event.frameRead HostMat.img], rfl, by simp, rfl, by simp [videoTrace, St.log]⟩
  | img :: rest, s, s', its, h => by
    cases he : img.empty with
    | true =>
      unfold handleVideoLoop at h
      simp only [he, if_true, Option.some.injEq, Prod.mk.injEq, Ending.returned.injEq] at h
      obtain ⟨rfl, rfl⟩ := h
      exact ⟨[], [Event.frameRead HostMat.img], rfl, by simp, rfl, by simp [videoTrace, St.log]⟩
    | false =>
      obtain ⟨s1, h1, hcase⟩ :=
        handleVideoLoop_step E mode filename low high img rest s s' its he h
      obtain ⟨L, hL, ha, _, _, _, _, hk1, _⟩ := handleImage_trace E mode filename low high true
        img (s.log [Event.frameRead HostMat.img]) s1 (Or.inl rfl) h1
      have hlast : L.getLast? = some Event.cudaGetLastError := by
        have h2 : s1.trace.getLast? = some Event.cudaGetLastError := by
          unfold handleImage at h1
          rw [returnOf_eq_some] at h1
          unfold handleImageRun at h1
          simp only [Bool.true_eq_false, if_false] at h1
          exact handleImageBody_last E mode low high true img _ s1 h1
        rw [hL, List.getLast?_append] at h2
        cases hl : L.getLast? with
        | none =>
          rw [List.getLast?_eq_none_iff] at hl
          rw [hl] at ha
          exact absurd ha (by decide)
        | some x => rw [hl] at h2; simpa using h2
      have hB : L.getLast? = some Event.cudaGetLastError ∧
          (mode ≠ Mode.CANNY_GUI → keyReads L = []) :=
        ⟨hlast, fun hm => (hk1 hm rfl).1⟩
      obtain ⟨_, _, w3⟩ := waitKey1_key s1
      have hbase : (waitKey1 s1).2.trace =
          s.trace ++ iterationTrace L (waitKey1 s1).1 := by
        rw [w3, hL, log_trace]
        simp [iterationTrace]
      rcases hcase with ⟨_, rfl, rfl⟩ | ⟨_, its2, rfl, hrec⟩
      · refine ⟨[L], [], rfl, ?_, rfl, ?_⟩
        · intro B hBm
          rw [List.mem_singleton] at hBm
          subst hBm
          exact hB
        · rw [hbase]; simp [videoTrace]
      · obtain ⟨blocks, tail, hlen, hall, htail, htr⟩ :=
          handleVideoLoop_blocks E mode filename low high rest _ s' its2 hrec
        refine ⟨L :: blocks, tail, by simp [hlen], ?_, htail, ?_⟩
        · intro B hBm
          rcases List.mem_cons.1 hBm with rfl | hBm
          · exact hB
          · exact hall B hBm
        · rw [htr, hbase]; simp [videoTrace]

/-- A run of the loop of `handleVideo` that returns is the replay of its
iterations, each running `handleImage` on the frame of the iteration, followed
by one more read of a frame unless the last key was ESC. -/
theorem handleVideoLoop_replay (E : Ext α) (mode : Mode) (filename : Str) (low high : Int) :
    ∀ (frames : List (Mat α)) (s s' : St α) (its : List (VideoIter α)),
      handleVideoLoop E mode filename low high frames s = some (its, Ending.returned s') →
      ∃ t, replayIterations E mode filename low high its s = some t ∧
        (((∃ it, its.getLast? = some it ∧ it.key = 27) ∧ s' = t) ∨
         ((∀ it, its.getLast? = some it → it.key ≠ 27) ∧
            s' = t.log [Event.frameRead HostMat.img]))
  | [], s, s', its, h => by
    simp only [handleVideoLoop, Option.some.injEq, Prod.mk.injEq, Ending.returned.injEq] at h
    obtain ⟨rfl, rfl⟩ := h
    exact ⟨s, rfl, Or.inr ⟨by simp, rfl⟩⟩
  | img :: rest, s, s', its, h => by
    cases he : img.empty with
    | true =>
      unfold handleVideoLoop at h
      simp only [he, if_true, Option.some.injEq, Prod.mk.injEq, Ending.returned.injEq] at h
      obtain ⟨rfl, rfl⟩ := h
      exact ⟨s, rfl, Or.inr ⟨by simp, rfl⟩⟩
    | false =>
      obtain ⟨s1, h1, hcase⟩ :=
        handleVideoLoop_step E mode filename low high img rest s s' its he h
      rcases hcase with ⟨hk, rfl, rfl⟩ | ⟨hk, its2, rfl, hrec⟩
      · refine ⟨(waitKey1 s1).2, ?_, Or.inl ⟨⟨_, rfl, hk⟩, rfl⟩⟩
        simp [replayIterations, h1]
      · obtain ⟨t, ht, hd⟩ := handleVideoLoop_replay E mode filename low high rest _ s' its2 hrec
        refine ⟨t, ?_, ?_⟩
        · simp [replayIterations, h1, ht]
        · cases its2 with
          | nil =>
            rcases hd with ⟨⟨it, hit, _⟩, _⟩ | ⟨_, hs'⟩
            · simp at hit
            · refine Or.inr ⟨?_, hs'⟩
              intro it hit
              simp only [List.getLast?_singleton, Option.some.injEq] at hit
              subst hit
              exact hk
          | cons b bs =>
            rw [List.getLast?_cons_cons]
            exact hd

/-- In mode `OTSU_BIN` the body of `handleImage` is ended by the exception of
line 234, having read no key and freed no buffer. -/
theorem handleImageBody_otsu (E : Ext α) (low high : Int) (fv : Bool) (img : Mat α)
    (s : St α) :
    ∃ t, handleImageBody E Mode.OTSU_BIN low high fv img s = some (Ending.thrown t) ∧
      keyReads t.trace = keyReads s.trace ∧
      freed t.trace = freed s.trace ∧
      t.trace.getLast? = some (Event.cvtColor HostMat.img_out ColorCode.RGBA2BGR) := by
  obtain ⟨L1, h1, _, f1, _, _, _, k1, _⟩ :=
    hiPrepare_trace E img (s.log [Event.cvtColor HostMat.img ColorCode.BGR2RGBA])
  refine ⟨_, rfl, ?_, ?_, ?_⟩
  · show keyReads (((hiCommon E img.cols img.rows (hiSetup E (toRGBA E img)
      (s.log [Event.cvtColor HostMat.img ColorCode.BGR2RGBA]))).trace ++ [_, _]) ++ [_]) = _
    rw [h1, log_trace]
    simp only [keyReads_append, k1]
    simp [keyReads, keyOf]
  · show freed (((hiCommon E img.cols img.rows (hiSetup E (toRGBA E img)
      (s.log [Event.cvtColor HostMat.img ColorCode.BGR2RGBA]))).trace ++ [_, _]) ++ [_]) = _
    rw [h1, log_trace]
    simp only [freed_append, f1]
    simp [freed, freeOf]
  · show (((hiCommon E img.cols img.rows (hiSetup E (toRGBA E img)
      (s.log [Event.cvtColor HostMat.img ColorCode.BGR2RGBA]))).trace ++ [_, _]) ++
        [Event.cvtColor HostMat.img_out ColorCode.RGBA2BGR]).getLast? = _
    simp

/-- In mode `OTSU_BIN` the loop of `handleVideo`, on a first frame that is not
empty, is ended by the exception that leaves `handleImage` on that frame,
whatever frames follow: no iteration is completed and no key is read. -/
theorem handleVideoLoop_otsu (E : Ext α) (filename : Str) (low high : Int) (img : Mat α)
    (s : St α) (he : img.empty = false) :
    ∃ t, (∀ rest, handleVideoLoop E Mode.OTSU_BIN filename low high (img :: rest) s =
        some ([], Ending.thrown t)) ∧
      keyReads t.trace = keyReads s.trace ∧
      freed t.trace = freed s.trace ∧
      t.trace.getLast? = some (Event.cvtColor HostMat.img_out ColorCode.RGBA2BGR) := by
  obtain ⟨t, ht, k, f, l⟩ := handleImageBody_otsu E low high true img
    (s.log [Event.frameRead HostMat.img])
  refine ⟨t, ?_, ?_, ?_, l⟩
  · intro rest
    unfold handleVideoLoop
    simp only [he, Bool.false_eq_true, if_false, handleImageRun, Bool.true_eq_false, ht]
  · rw [k, log_trace, keyReads_append]
    simp [keyReads, keyOf]
  · rw [f, log_trace, freed_append]
    simp [freed, freeOf]

/-- C7 (the code departs from the claim): in mode `OTSU_BIN`, on a capture
whose first frame is not empty, `handleVideo` is ended inside the first
iteration by the exception that `cv::cvtColor` throws at line 234 of
`handleImage`, whatever frames follow and whatever keys are pressed: no
iteration is completed, no key is read, and the frames after the first are
never processed. In the other modes the claim holds. On a capture that opened,
holding the frames `frames`, with whatever turns of key readings `s.ui`: in
every mode but `OTSU_BIN` and the trackbar one `handleVideo` returns; and
whenever it returns, the frames of its iterations are, in order, an initial
stretch of the frames that precede the first empty frame; no key read after a
frame but the last is ESC (27); if it stopped before the first empty frame, the
key read after its last frame is ESC; its final state is the one reached by
reading a frame, running `handleImage` on that very frame and then reading
the key with `cv::waitKey(1)`, iteration after iteration, followed by one more
read of a frame unless the last key was ESC; the trace is, iteration by
iteration, the read of the frame, the calls of that frame's `handleImage`
(ending with its last statement, `cudaGetLastError`), then one
`cv::waitKey(1)`; and in every mode but the trackbar one these are the only key
reads, the i-th one returning the i-th key of the readings (`-1` once they are
used up). -/
theorem handleVideo_runs_frames_but_otsu_throws :
    (∀ (E : Ext α) (filename : Str) (low high : Int) (img : Mat α) (rest : List (Mat α))
        (s : St α), E.videoFrames filename = some (img :: rest) → img.empty = false →
        ∃ t, handleVideoRun E Mode.OTSU_BIN filename low high s =
            some ([], Ending.thrown t) ∧
          (∀ rest2, handleVideoLoop E Mode.OTSU_BIN filename low high (img :: rest2)
            (s.log [Event.videoCapture filename]) = some ([], Ending.thrown t)) ∧
          keyReads t.trace = keyReads s.trace ∧
          t.trace.getLast? = some (Event.cvtColor HostMat.img_out ColorCode.RGBA2BGR)) ∧
    (∀ (E : Ext α) (mode : Mode) (filename : Str) (low high : Int) (frames : List (Mat α))
        (s : St α), E.videoFrames filename = some frames →
      (mode ≠ Mode.CANNY_GUI → mode ≠ Mode.OTSU_BIN →
        ∃ its s', handleVideoRun E mode filename low high s =
          some (its, Ending.returned s')) ∧
      ∀ (its : List (VideoIter α)) (s' : St α),
        handleVideoRun E mode filename low high s = some (its, Ending.returned s') →
        its.map (fun it => it.frame) <+: frames.takeWhile nonEmpty ∧
        (∀ it ∈ its.dropLast, it.key ≠ 27) ∧
        (its.length < (frames.takeWhile nonEmpty).length →
          ∃ it, its.getLast? = some it ∧ it.key = 27) ∧
        (∃ t, replayIterations E mode filename low high its
              (s.log [Event.videoCapture filename]) = some t ∧
          (((∃ it, its.getLast? = some it ∧ it.key = 27) ∧ s' = t) ∨
           ((∀ it, its.getLast? = some it → it.key ≠ 27) ∧
              s' = t.log [Event.frameRead HostMat.img]))) ∧
        (∃ (blocks : List (List Event)) (tail : List Event),
          blocks.length = its.length ∧
          (∀ B ∈ blocks, B.getLast? = some Event.cudaGetLastError ∧
            (mode ≠ Mode.CANNY_GUI → keyReads B = [])) ∧
          keyReads tail = [] ∧
          s'.trace = s.trace ++ [Event.videoCapture filename] ++
            videoTrace blocks (its.map (fun it => it.key)) ++ tail) ∧
        (mode ≠ Mode.CANNY_GUI →
          keyReads s'.trace = keyReads s.trace ++ its.map (fun it => it.key) ∧
          ∀ i, i < its.length →
            (its.map (fun it => it.key)).getD i 0 = keyStream s.ui i)) := by
  constructor
  · intro E filename low high img rest s hopen he
    obtain ⟨t, ht, k, _, l⟩ := handleVideoLoop_otsu E filename low high img
      (s.log [Event.videoCapture filename]) he
    refine ⟨t, ?_, ht, ?_, l⟩
    · simp only [handleVideoRun, hopen]
      exact ht rest
    · rw [k, log_trace, keyReads_append]
      simp [keyReads, keyOf]
  · intro E mode filename low high frames s hopen
    have hv : handleVideoRun E mode filename low high s =
        handleVideoLoop E mode filename low high frames
          (s.log [Event.videoCapture filename]) := by
      simp only [handleVideoRun, hopen]
    rw [hv]
    refine ⟨fun hm ho => handleVideoLoop_returns E mode filename low high hm ho frames _, ?_⟩
    intro its s' h
    obtain ⟨i1, i2, i3⟩ := handleVideoLoop_iters E mode filename low high frames _ s' its h
    obtain ⟨blocks, tail, b1, b2, b3, b4⟩ :=
      handleVideoLoop_blocks E mode filename low high frames _ s' its h
    refine ⟨i1, i2, i3, handleVideoLoop_replay E mode filename low high frames _ s' its h,
      ⟨blocks, tail, b1, b2, b3, by rw [b4, log_trace]⟩, ?_⟩
    intro hm
    obtain ⟨k1, k2⟩ := handleVideoLoop_keys E mode filename low high hm frames _ s' its h
    refine ⟨?_, k2⟩
    rw [k1, log_trace, keyReads_append]
    simp [keyReads, keyOf]
/-- C7, evaluated on the three-frame video of the sample world (pixel data 30,
40 and 50), with no key at the first `cv::waitKey(1)` and ESC at the second. The
command line `-O -f=v.mp4` makes `main` call `handleVideo` in mode `OTSU_BIN`. In
mode `OTSU_BIN` the run is ended by the exception in the first iteration: no
iteration is completed, one frame has been read and no key. In mode `CANNY`
`handleVideo` returns after two iterations, on the frames 30 and 40 with the
keys `-1` and `27`, and the Canny stage has been given the thresholds of these
two frames, (36, 72) and (46, 92). -/
theorem handleVideo_runs_frames_but_otsu_throws_witness :
    (main [arg0, str_O, str_f ++ v_mp4]).call =
      some (Call.handleVideo Mode.OTSU_BIN v_mp4 0 0) ∧
    demoExt.videoFrames v_mp4 = some [⟨2, 2, 3, 30⟩, ⟨2, 2, 3, 40⟩, ⟨2, 2, 3, 50⟩] ∧
    (∃ t, handleVideoRun demoExt Mode.OTSU_BIN v_mp4 0 0
        (demoStart [⟨-1, 50, 100⟩, ⟨27, 50, 100⟩]) = some ([], Ending.thrown t)) ∧
    (handleVideoRun demoExt Mode.OTSU_BIN v_mp4 0 0
      (demoStart [⟨-1, 50, 100⟩, ⟨27, 50, 100⟩])).map
        (fun r => (r.1.length,
          (endingOf (some r.2)).map (fun e => (e.1, frameReads e.2, keyReads e.2)))) =
      some (0, some (false, 1, [])) ∧
    (∃ its s', handleVideoRun demoExt Mode.CANNY v_mp4 0 0
        (demoStart [⟨-1, 50, 100⟩, ⟨27, 50, 100⟩]) = some (its, Ending.returned s')) ∧
    (handleVideoRun demoExt Mode.CANNY v_mp4 0 0
      (demoStart [⟨-1, 50, 100⟩, ⟨27, 50, 100⟩])).map
        (fun r => (r.1.map (fun it => (it.frame.data, it.key)),
          (endingOf (some r.2)).map (fun e => (e.1, cannyCalls e.2, keyReads e.2)))) =
      some ([(30, -1), (40, 27)], some (true, [(36, 72), (46, 92)], [-1, 27])) :=
  ⟨by decide, rfl,
    (handleVideo_runs_frames_but_otsu_throws.1 demoExt v_mp4 0 0 ⟨2, 2, 3, 30⟩
      [⟨2, 2, 3, 40⟩, ⟨2, 2, 3, 50⟩] (demoStart [⟨-1, 50, 100⟩, ⟨27, 50, 100⟩]) rfl
      (by decide)).imp (fun _ h => h.1),
    by decide,
    (handleVideo_runs_frames_but_otsu_throws.2 demoExt Mode.CANNY v_mp4 0 0
      [⟨2, 2, 3, 30⟩, ⟨2, 2, 3, 40⟩, ⟨2, 2, 3, 50⟩]
      (demoStart [⟨-1, 50, 100⟩, ⟨27, 50, 100⟩]) rfl).1 (by decide) (by decide),
    rfl⟩
theorem lastIndexFrom_not_mem (c : Char) :
    ∀ (xs : Str) (i : Nat) (best : Option Nat), c ∉ xs → lastIndexFrom c xs i best = best
  | [], _, _, _ => rfl
  | x :: xs, i, best, h => by
    have hx : x ≠ c := fun e => h (by simp [e])
    have hxs : c ∉ xs := fun e => h (by simp [e])
    simp only [lastIndexFrom, hx, if_false]
    exact lastIndexFrom_not_mem c xs (i + 1) best hxs

/-- The extension the source computes for a name without a dot is the whole
name. -/
theorem extOf_dotless (name : Str) (h : '.' ∉ name) : extOf name = name := by
  unfold extOf find_last_of
  rw [lastIndexFrom_not_mem '.' name 0 none h]
  simp [npos, substrFrom]

/-- The extension the source computes for a name with a dot is what follows
its last dot, the name being short enough for `size_t`. -/
theorem extOf_dotted (stem ext : Str) (h : '.' ∉ ext) (hlen : stem.length + 1 < 2 ^ 64) :
    extOf (stem ++ '.' :: ext) = ext := by
  have hfind : find_last_of (stem ++ '.' :: ext) '.' = stem.length := by
    unfold find_last_of
    rw [lastIndexFrom_append]
    simp only [lastIndexFrom, if_true]
    rw [lastIndexFrom_not_mem '.' ext _ _ h]
    simp
  unfold extOf
  rw [hfind, Nat.mod_eq_of_lt hlen]
  simp [substrFrom]

/-- C9 (the code departs from the claim): a file name without a dot has no
extension, yet the source takes the whole name as its extension: on such a
name `find_last_of` gives `npos`, and `npos + 1` wraps to 0. So the command
lines `-H -f=jpg` and `-H -f=png` make `main` return 0 after calling
`handleImage`, and `-H -f=mp4` after calling `handleVideo`, where the claim
says -1 and no call. On a name with a dot the source's extension is what
follows the last dot; and `main` returns -1 and calls no pipeline when
`argc < 3`, or `argv[1]` is none of `-H`, `-C`, `-O`, `-S`, `-OP`, or `argv[2]`
does not begin with `-f=`, or the file name after `-f=` is empty, or the
extension the source computes for it is none of `jpg`, `png`, `mp4`. -/
theorem main_accepts_dotless_file_names :
    ('.' ∉ str_jpg ∧ main [arg0, str_H, str_f ++ str_jpg] =
      ⟨0, some (Call.handleImage Mode.HARRIS str_jpg 0 0)⟩) ∧
    ('.' ∉ str_png ∧ main [arg0, str_H, str_f ++ str_png] =
      ⟨0, some (Call.handleImage Mode.HARRIS str_png 0 0)⟩) ∧
    ('.' ∉ str_mp4 ∧ main [arg0, str_H, str_f ++ str_mp4] =
      ⟨0, some (Call.handleVideo Mode.HARRIS str_mp4 0 0)⟩) ∧
    (∀ name : Str, '.' ∉ name → extOf name = name) ∧
    (∀ stem ext : Str, '.' ∉ ext → stem.length + 1 < 2 ^ 64 →
      extOf (stem ++ '.' :: ext) = ext) ∧
    (∀ argv : List Str,
      (argv.length < 3 ∨
        (argv.getD 1 [] ≠ str_H ∧ argv.getD 1 [] ≠ str_C ∧ argv.getD 1 [] ≠ str_O ∧
          argv.getD 1 [] ≠ str_S ∧ argv.getD 1 [] ≠ str_OP) ∨
        ¬ (str_f <+: argv.getD 2 []) ∨
        (argv.getD 2 []).drop 3 = [] ∨
        (extOf ((argv.getD 2 []).drop 3) ≠ str_jpg ∧
          extOf ((argv.getD 2 []).drop 3) ≠ str_png ∧
          extOf ((argv.getD 2 []).drop 3) ≠ str_mp4)) →
      main argv = ⟨-1, none⟩) :=
  ⟨by decide, by decide, by decide, extOf_dotless, extOf_dotted, main_rejects_bad_arguments⟩

/-- C9, evaluated: `b.txt` is `b`, a dot and `txt`, so its extension is `txt`
and the command line `-H -f=b.txt` is rejected; the name `jpg` is its own
extension. -/
theorem main_accepts_dotless_file_names_witness :
    extOf str_jpg = str_jpg ∧
    extOf (['b'] ++ '.' :: ['t', 'x', 't']) = ['t', 'x', 't'] ∧
    main [arg0, str_H, str_f ++ b_txt] = ⟨-1, none⟩ :=
  ⟨main_accepts_dotless_file_names.2.2.2.1 str_jpg (by decide),
    main_accepts_dotless_file_names.2.2.2.2.1 ['b'] ['t', 'x', 't'] (by decide) (by decide),
    main_accepts_dotless_file_names.2.2.2.2.2 [arg0, str_H, str_f ++ b_txt] (by decide)⟩

end GPUProject
